import Mathlib

/-!
Verification of the LuluBingo game-lifecycle and ledger subsystem.

This file shallowly embeds the core operations of the repository
(`transactions/services.py`, `games/views.py`, `games/serializers.py`)
as executable Lean definitions and proves the specified properties.

Money values (Django `DecimalField`, 2 decimal places) are modelled as
rationals; `Decimal.quantize(0.01, ROUND_HALF_UP)` is modelled by
`quantize2`.  Randomness (`random.sample`) is modelled by an explicit
random stream `rnd : ℕ → ℕ` together with a stream position, and
sampling without replacement is implemented directly.  Database
rollback of a failed atomic block is modelled by `Except`: a failing
operation returns an error and no new state.
-/

namespace LuluBingo

/-- `Decimal.quantize(Decimal("0.01"), rounding=ROUND_HALF_UP)`:
round to 2 decimal places, ties away from zero. -/
def quantize2 (q : ℚ) : ℚ :=
  if q < 0 then -((⌊(-q) * 100 + 1/2⌋ : ℚ) / 100)
  else (⌊q * 100 + 1/2⌋ : ℚ) / 100

/-- A rational representable with 2 decimal digits (every persisted
money field satisfies this: the DB columns have `decimal_places=2`). -/
def Is2dp (q : ℚ) : Prop := ∃ z : ℤ, q = (z : ℚ) / 100

/-! ## Ledger Engine (`transactions/services.py`) -/

/-- One immutable ledger row (`transactions/models.py`, `Transaction`).
The free-form `metadata` dict and timestamps are not modelled. -/
structure Transaction where
  tx_type : String
  amount : ℚ
  balance_before : ℚ
  balance_after : ℚ
  reference : String
  deriving DecidableEq, Repr

/-- `CREDIT_TYPES` from `transactions/services.py`. -/
def CREDIT_TYPES : List String := ["deposit", "bet_credit", "adjustment"]

/-- `DEBIT_TYPES` from `transactions/services.py`. -/
def DEBIT_TYPES : List String := ["withdrawal", "bet_debit"]

/-- `ALL_TYPES = CREDIT_TYPES | DEBIT_TYPES`. -/
def ALL_TYPES : List String := CREDIT_TYPES ++ DEBIT_TYPES

/-- The wallet balance of one shop account together with its
append-only transaction log. -/
structure LedgerState where
  balance : ℚ
  txs : List Transaction
  deriving DecidableEq, Repr

/-- `apply_transaction` (`transactions/services.py:19-53`).  A raised
`TransactionError` is an `Except.error`; the enclosing
`db_transaction.atomic()` then rolls everything back, so no state is
returned on error. -/
def apply_transaction (st : LedgerState) (amount : ℚ) (tx_type : String)
    (reference : String) : Except String (Transaction × LedgerState) :=
  if amount ≤ 0 then .error "Amount must be positive"
  else if tx_type ∉ ALL_TYPES then .error "Unknown transaction type"
  else
    let delta := if tx_type ∈ CREDIT_TYPES then amount else -amount
    let before := st.balance
    let after := before + delta
    if after < 0 then .error "Insufficient balance"
    else
      let tx : Transaction :=
        { tx_type := tx_type, amount := amount, balance_before := before,
          balance_after := after, reference := reference }
      .ok (tx, { balance := after, txs := st.txs ++ [tx] })

/-- The ledger state after a call of `apply_transaction`: on error the
atomic block rolls back and the state is unchanged. -/
def apply_transaction_state (st : LedgerState) (amount : ℚ) (tx_type : String)
    (reference : String) : LedgerState :=
  match apply_transaction st amount tx_type reference with
  | .ok (_, st') => st'
  | .error _ => st

/-- Sequencing of a fallible step (a `try` body inside an atomic
block): an error propagates, success continues. -/
def exceptStep {α β : Type} (x : Except String α) (f : α → Except String β) :
    Except String β :=
  match x with
  | .error e => .error e
  | .ok a => f a

/-- Branch on an optional value. -/
def optStep {α β : Type} (x : Option α) (n : β) (f : α → β) : β :=
  match x with
  | none => n
  | some a => f a

/-! ## Cartella Generator (`games/views.py:37-81`, `games/models.py:69-75`)

`random.sample(population, k)` draws `k` distinct elements from the
population.  It is modelled by `sampleAux`: the random stream `rnd`
yields at each consumed position an arbitrary natural, which selects
(modulo the remaining pool size) the next element, removed from the
pool.  Each call consumes one stream position. -/

/-- Sampling without replacement: `k` picks from `pool`, consuming
stream positions `pos, pos+1, …`. -/
def sampleAux (rnd : ℕ → ℕ) : List ℕ → ℕ → ℕ → List ℕ
  | _, 0, _ => []
  | pool, k + 1, pos =>
    let idx := rnd pos % pool.length
    pool.getD idx 0 :: sampleAux rnd (pool.eraseIdx idx) k (pos + 1)

/-- `random.sample(range(1, 76), 75)`: a draw sequence. -/
def sample75 (rnd : ℕ → ℕ) (pos : ℕ) : List ℕ :=
  sampleAux rnd (List.range' 1 75) 75 pos

/-- `_generate_cartella_board` (`games/views.py:37-44`): five columns
sampled from [1,15], [16,30], [31,45], [46,60], [61,75] (15 numbers
each), concatenated, then index 12 overwritten with 0.  Column `j`
consumes stream positions `pos+5j … pos+5j+4`. -/
def _generate_cartella_board (rnd : ℕ → ℕ) (pos : ℕ) : List ℕ :=
  let c0 := sampleAux rnd (List.range' 1 15) 5 pos
  let c1 := sampleAux rnd (List.range' 16 15) 5 (pos + 5)
  let c2 := sampleAux rnd (List.range' 31 15) 5 (pos + 10)
  let c3 := sampleAux rnd (List.range' 46 15) 5 (pos + 15)
  let c4 := sampleAux rnd (List.range' 61 15) 5 (pos + 20)
  (c0 ++ c1 ++ c2 ++ c3 ++ c4).set 12 0

/-- Retry loop of `_generate_unique_cartella_boards`
(`games/views.py:56-67`), with the attempt budget as fuel; each
attempt consumes 25 stream positions. -/
def genBoardsGo (count : ℕ) (rnd : ℕ → ℕ) :
    ℕ → List (List ℕ) → ℕ → Except String (List (List ℕ) × ℕ)
  | 0, boards, pos =>
    if boards.length ≥ count then .ok (boards, pos)
    else .error "Failed to generate unique cartella boards"
  | fuel + 1, boards, pos =>
    if boards.length ≥ count then .ok (boards, pos)
    else
      let board := _generate_cartella_board rnd pos
      if board ∈ boards then genBoardsGo count rnd fuel boards (pos + 25)
      else genBoardsGo count rnd fuel (boards ++ [board]) (pos + 25)

/-- `_generate_unique_cartella_boards` (`games/views.py:47-69`).
Returns the boards and the next unconsumed stream position. -/
def _generate_unique_cartella_boards (count : ℕ) (rnd : ℕ → ℕ) (pos : ℕ) :
    Except String (List (List ℕ) × ℕ) :=
  if count = 0 then .ok ([], pos)
  else genBoardsGo count rnd (max (count * 400) 400) [] pos

/-- Per-cartella shuffled draw orders (`games/models.py:72-73`):
cartella `k` consumes stream positions `pos+75k … pos+75k+74`. -/
def cartellaDrawSequences (n : ℕ) (rnd : ℕ → ℕ) (pos : ℕ) : List (List ℕ) :=
  (List.range n).map fun k => sample75 rnd (pos + 75 * k)

/-! ## Game state (`games/models.py`, migrations 0002-0008) -/

inductive GStatus where
  | pending | active | completed | cancelled
  deriving DecidableEq, Repr

inductive GMode where
  | standard | shop_fixed4
  deriving DecidableEq, Repr

/-- A claim audit entry (`awarded_claims` items, `games/views.py:558-617`).
The ISO timestamp is not modelled; the financial snapshot fields are
`none` for a false claim. -/
structure ClaimEvent where
  cartella_index : ℕ
  pattern : String
  called_count : ℕ
  result : String
  total_pool : Option ℚ := none
  payout_amount : Option ℚ := none
  shop_cut_amount : Option ℚ := none
  deriving DecidableEq, Repr

/-- One player's record in `ShopBingoSession.players_data`
(`games/views.py:743-750`).  `total_bet` is `none` when the stored
value is `None`/`""`; timestamps are modelled as set/unset. -/
structure Player where
  player_name : String
  cartella_numbers : List ℕ
  bet_per_cartella : ℚ
  total_bet : Option ℚ
  paid : Bool
  paid_at : Option Unit := none
  deriving DecidableEq, Repr, Inhabited

/-- The `Game` row.  `game_code` (a random unique slug) is not
modelled; timestamps are modelled as set/unset.  `cartella_statuses`
(a JSON dict keyed by the decimal string of the index) is modelled as
a total function from the index. -/
structure Game where
  game_mode : GMode
  bet_amount : ℚ
  min_bet_per_cartella : ℚ
  num_players : ℕ
  win_amount : ℚ
  cartella_numbers : List (List ℕ)
  cartella_number_map : List (ℕ × ℕ)
  cartella_draw_sequences : List (List ℕ)
  draw_sequence : List ℕ
  called_numbers : List ℕ
  call_cursor : ℕ
  current_called_number : Option ℕ
  shop_players_data : List Player
  status : GStatus
  winners : List ℕ
  banned_cartellas : List ℕ
  cartella_statuses : ℕ → String
  awarded_claims : List ClaimEvent
  total_pool : ℚ
  cut_percentage : Option ℚ
  win_percentage : ℚ
  payout_amount : ℚ
  shop_cut_amount : ℚ
  winning_pattern : String
  started_at : Option Unit
  ended_at : Option Unit
  bet_debited_at : Option Unit
  payout_credited_at : Option Unit
  refund_credited_at : Option Unit

/-- The relevant feature flags of the shop account
(`accounts` collaborator): the `cut_percentage` / `win_percentage`
keys of the `feature_flags` dict, absent = `none`. -/
structure FeatureFlags where
  cut_percentage : Option ℚ := none
  win_percentage : Option ℚ := none
  deriving DecidableEq, Repr

structure Shop where
  feature_flags : FeatureFlags
  deriving DecidableEq, Repr

/-! ## Claim adjudication helpers (`games/views.py:84-151`) -/

/-- `str.lower()`, modelled on the character list so that it is
kernel-reducible (the patterns and names involved are ASCII). -/
def lowerStr (s : String) : String :=
  ⟨s.data.map Char.toLower⟩

/-- `str.strip().lower()`, modelled on the character list. -/
def normalizePattern (s : String) : String :=
  lowerStr ⟨((s.data.dropWhile Char.isWhitespace).reverse.dropWhile
    Char.isWhitespace).reverse⟩

/-- A cell is marked if it is the free space or has been called. -/
def is_marked (called : List ℕ) (v : ℕ) : Bool :=
  v = 0 || v ∈ called

/-- `_board_matches_pattern` (`games/views.py:84-106`). -/
def _board_matches_pattern (board : List ℕ) (called : List ℕ)
    (pattern : String) : Bool :=
  let normalized := normalizePattern pattern
  if board.length ≠ 25 then false
  else
    let grid := (List.range 5).map fun r => (board.drop (5 * r)).take 5
    if normalized = "row" then
      grid.any fun row => row.all (is_marked called)
    else if normalized = "diagonal" then
      let main := (List.range 5).all fun i => is_marked called ((grid.getD i []).getD i 0)
      let anti := (List.range 5).all fun i => is_marked called ((grid.getD i []).getD (4 - i) 0)
      main || anti
    else false

/-- `_detect_winning_pattern` (`games/views.py:109-113`). -/
def _detect_winning_pattern (board : List ℕ) (called : List ℕ) : Option String :=
  if _board_matches_pattern board called "row" then some "row"
  else if _board_matches_pattern board called "diagonal" then some "diagonal"
  else none

/-- `_ensure_cartella_statuses` (`games/views.py:116-133`): defaults
every index to `"active"`, overlays stored values that are members of
the valid set, then forces banned indices to `"banned"` and winner
indices to `"winner"` (in that order, so winner beats banned). -/
def _ensure_cartella_statuses (g : Game) : ℕ → String := fun i =>
  if i ∈ g.winners then "winner"
  else if i ∈ g.banned_cartellas then "banned"
  else if g.cartella_statuses i ∈ ["active", "banned", "winner"] then
    g.cartella_statuses i
  else "active"

/-- `_resolve_game_financials` (`games/views.py:136-151`): returns
`(total_pool, payout_amount, shop_cut)`. -/
def _resolve_game_financials (g : Game) : ℚ × ℚ × ℚ :=
  let total_pool :=
    if g.total_pool > 0 then g.total_pool
    else g.bet_amount * (g.cartella_numbers.length : ℚ)
  let cut_percentage := (g.cut_percentage.getD 10)
  let cut_percentage := max 0 (min 100 cut_percentage)
  let shop_cut := quantize2 (total_pool * cut_percentage / 100)
  let payout_amount := quantize2 (total_pool - shop_cut)
  (total_pool, payout_amount, shop_cut)

/-! ## Next-call (`GameNextCallView.post`, `games/views.py:399-454`) -/

inductive NextCallResp where
  /-- 400: "Game must be active before calling numbers". -/
  | notActive
  /-- `is_complete = True`, draws exhausted; not an error. -/
  | complete
  /-- A number was called. -/
  | called (n : ℕ)
  deriving DecidableEq, Repr

/-- `GameNextCallView.post`: rejection and completion branches leave
the game untouched; otherwise the number at `call_cursor` is appended
and the cursor advances. -/
def gameNextCall (g : Game) : NextCallResp × Game :=
  if g.status ≠ GStatus.active then (.notActive, g)
  else if g.call_cursor ≥ g.draw_sequence.length then (.complete, g)
  else
    let next_number := g.draw_sequence.getD g.call_cursor 0
    (.called next_number,
      { g with
        called_numbers := g.called_numbers ++ [next_number]
        call_cursor := g.call_cursor + 1
        current_called_number := some next_number })

/-- The game state after `n` further next-call invocations
(`GameNextCallView.post` applied `n` times). -/
def nextCalls (g : Game) : ℕ → Game
  | 0 => g
  | n + 1 => nextCalls (gameNextCall g).2 n

/-! ## Claim adjudication (`GameClaimView.post`, `games/views.py:492-665`) -/

inductive ClaimResp where
  /-- 400: "Claims are only allowed for active games". -/
  | notActive
  /-- 400: "Cartella index out of range" (or negative index). -/
  | badIndex
  /-- 400: "pattern must be one of: row, diagonal". -/
  | badPattern
  /-- 200: already-banned cartella, idempotent re-check. -/
  | bannedResp (idx : ℕ)
  /-- 200: false claim, cartella newly banned. -/
  | falseClaim (idx : ℕ) (pattern : String)
  /-- 200: bingo confirmed, game completed. -/
  | win (idx : ℕ) (pattern : String) (total_pool payout shop_cut : ℚ)
  /-- An uncaught `TransactionError` in the shop-cut credit: the
  atomic block aborts and rolls back. -/
  | ledgerFailure (e : String)
  deriving DecidableEq, Repr

/-- The game saved by the already-banned branch
(`games/views.py:533-536`): only the statuses dict is rewritten. -/
def bannedClaimUpdate (g : Game) (idx : ℕ) : Game :=
  { g with cartella_statuses := fun j =>
      if j = idx then "banned" else _ensure_cartella_statuses g j }

/-- The game saved by the false-claim branch
(`games/views.py:566-573`): the cartella joins `banned_cartellas`
(kept as a sorted set), its status becomes `"banned"`, and the audit
log gains a `false_claim` entry. -/
def falseClaimUpdate (g : Game) (idx : ℕ) (selected_pattern : String) : Game :=
  { g with
      banned_cartellas := ((idx :: g.banned_cartellas).dedup).mergeSort (· ≤ ·)
      cartella_statuses := fun j =>
        if j = idx then "banned" else _ensure_cartella_statuses g j
      awarded_claims := g.awarded_claims ++
        [{ cartella_index := idx, pattern := selected_pattern,
           called_count := g.called_numbers.dedup.length,
           result := "false_claim" }] }

/-- The game saved by the winning branch (`games/views.py:611-646`). -/
def winClaimUpdate (g : Game) (idx : ℕ) (selected_pattern : String)
    (total_pool payout_amount shop_cut : ℚ) : Game :=
  { g with
      status := GStatus.completed
      winners := [idx]
      cartella_statuses := fun j =>
        if j = idx then "winner" else _ensure_cartella_statuses g j
      winning_pattern := selected_pattern
      total_pool := total_pool
      cut_percentage := some (g.cut_percentage.getD 10)
      payout_amount := payout_amount
      shop_cut_amount := shop_cut
      ended_at := g.ended_at.orElse fun _ => some ()
      awarded_claims := g.awarded_claims ++
        [{ cartella_index := idx, pattern := selected_pattern,
           called_count := g.called_numbers.dedup.length,
           result := "win", total_pool := some total_pool,
           payout_amount := some payout_amount,
           shop_cut_amount := some shop_cut }]
      call_cursor := g.draw_sequence.length }

/-- `pattern = str(pattern_raw).strip().lower() if pattern_raw is not
None else ""` (`games/views.py:502`). -/
def patternOfRaw (pattern_raw : Option String) : String :=
  match pattern_raw with
  | some s => normalizePattern s
  | none => ""

/-- The shop-cut credit of the winning branch
(`games/views.py:593-609`): a ledger call only when the cut is
positive; an error aborts the enclosing atomic block. -/
def winLedgerStep (led : LedgerState) (shop_cut : ℚ) : Except String LedgerState :=
  if shop_cut > 0 then
    match apply_transaction led shop_cut "bet_credit" "shop_cut" with
    | .ok (_, led') => .ok led'
    | .error e => .error e
  else .ok led

/-- Outcome of the winning branch: response, saved game and ledger on
success; rollback (original states) when the ledger call fails. -/
def winFinish (g : Game) (led : LedgerState) (idx : ℕ) (selected_pattern : String)
    (total_pool payout_amount shop_cut : ℚ) : ClaimResp × Game × LedgerState :=
  match winLedgerStep led shop_cut with
  | .error e => (.ledgerFailure e, g, led)
  | .ok led' =>
    (.win idx selected_pattern total_pool payout_amount shop_cut,
      winClaimUpdate g idx selected_pattern total_pool payout_amount shop_cut,
      led')

/-- `GameClaimView.post`.  `cartella_index` is an integer (the `int()`
conversion already applied); `pattern_raw = none` models an absent
pattern.  Returns the response together with the resulting game and
ledger states (unchanged on the rejection branches). -/
def gameClaim (g : Game) (led : LedgerState) (cartella_index : ℤ)
    (pattern_raw : Option String) : ClaimResp × Game × LedgerState :=
  let pattern := patternOfRaw pattern_raw
  if g.status ≠ GStatus.active then (.notActive, g, led)
  else if cartella_index < 0 ∨ cartella_index ≥ (g.cartella_numbers.length : ℤ) then
    (.badIndex, g, led)
  else
    let idx := cartella_index.toNat
    if pattern ≠ "" ∧ pattern ∉ ["row", "diagonal"] then (.badPattern, g, led)
    else
      if idx ∈ g.banned_cartellas then
        (.bannedResp idx, bannedClaimUpdate g idx, led)
      else
        let called_numbers := g.called_numbers
        let board := g.cartella_numbers.getD idx []
        let detected_pattern := _detect_winning_pattern board called_numbers
        let selected_pattern :=
          if pattern ≠ "" then pattern else detected_pattern.getD "row"
        let is_winner :=
          if pattern = "" then detected_pattern.isSome
          else _board_matches_pattern board called_numbers pattern
        if ¬ is_winner then
          (.falseClaim idx selected_pattern, falseClaimUpdate g idx selected_pattern, led)
        else
          let fin := _resolve_game_financials g
          winFinish g led idx selected_pattern fin.1 fin.2.1 fin.2.2

/-! ## Standard-mode game creation
(`GameCreateSerializer`, `games/serializers.py:52-125`) -/

/-- The `Game` row persisted by standard-mode creation
(`games/serializers.py:95-107`, draws filled in by `Game.save`'s
`_ensure_draws`): immediately `active`, `started_at` and
`bet_debited_at` stamped. -/
def mkStandardGame (bet_amount : ℚ) (num_players : ℕ) (win_amount : ℚ)
    (cartellas : List (List ℕ)) (cut_percentage win_percentage : ℚ)
    (rnd : ℕ → ℕ) (pos : ℕ) : Game :=
  { game_mode := GMode.standard
    bet_amount := bet_amount
    min_bet_per_cartella := 20
    num_players := num_players
    win_amount := win_amount
    cartella_numbers := cartellas
    cartella_number_map := []
    cartella_draw_sequences := cartellaDrawSequences cartellas.length rnd (pos + 75)
    draw_sequence := sample75 rnd pos
    called_numbers := []
    call_cursor := 0
    current_called_number := none
    shop_players_data := []
    status := GStatus.active
    winners := []
    banned_cartellas := []
    cartella_statuses := fun _ => "active"
    awarded_claims := []
    total_pool := bet_amount * (cartellas.length : ℚ)
    cut_percentage := some cut_percentage
    win_percentage := win_percentage
    payout_amount := 0
    shop_cut_amount := 0
    winning_pattern := ""
    started_at := some ()
    ended_at := none
    bet_debited_at := some ()
    payout_credited_at := none
    refund_credited_at := none }

/-- `GameCreateSerializer` validation followed by `create`.  The field
validator checks the cartella numbers, the object validator the
per-player cap (`num_players or 0`; a zero value makes the cap default
to the submitted count).  `create` builds the active game, debits
`bet_amount * len(cartellas)` through the Ledger Engine, and stamps
`bet_debited_at`; a `TransactionError` aborts the atomic block, so no
game row survives. -/
def game_create (user : Shop) (led : LedgerState) (bet_amount : ℚ)
    (num_players : ℕ) (win_amount : ℚ) (cartellas : List (List ℕ))
    (rnd : ℕ → ℕ) (pos : ℕ) : Except String (Game × LedgerState) :=
  if cartellas.isEmpty then .error "Provide at least one cartella"
  else if (cartellas.map List.length).sum = 0 then
    .error "Cartella numbers cannot be empty"
  else if cartellas.any (fun c => c.any fun n => n < 1 ∨ n > 75) then
    .error "Cartella numbers must be between 1 and 75"
  else
    let max_cartellas := if num_players ≠ 0 then num_players * 4 else cartellas.length
    if cartellas.length > max_cartellas then
      .error "Total cartellas exceed allowed 4 per player"
    else
      let total_bet := bet_amount * (cartellas.length : ℚ)
      let cut_percentage_raw := user.feature_flags.cut_percentage.getD 10
      let cut_percentage := max 0 (min 100 cut_percentage_raw)
      let win_percentage := 100 - cut_percentage
      exceptStep (apply_transaction led total_bet "bet_debit" "game_bet") fun tl =>
        .ok (mkStandardGame bet_amount num_players win_amount cartellas
          cut_percentage win_percentage rnd pos, tl.2)

/-! ## Complete / cancel
(`GameCompleteSerializer`, `games/serializers.py:128-205`) -/

/-- The completed-branch payout credit of
`GameCompleteSerializer.update` (`games/serializers.py:161-176`). -/
def completePayoutStep (g : Game) (led : LedgerState) (new_status : GStatus)
    (winners : List ℕ) : Except String (Game × LedgerState) :=
  if new_status = GStatus.completed ∧ g.payout_credited_at = none then
    let payout_amount := g.win_amount * (winners.length : ℚ)
    if payout_amount > 0 then
      exceptStep (apply_transaction led payout_amount "bet_credit" "payout") fun tl =>
        .ok ({ g with payout_credited_at := some () }, tl.2)
    else .ok ({ g with payout_credited_at := some () }, led)
  else .ok (g, led)

/-- The cancelled-branch refund credit of
`GameCompleteSerializer.update` (`games/serializers.py:178-191`). -/
def cancelRefundStep (g1 : Game) (led1 : LedgerState) (new_status : GStatus)
    (total_bet : ℚ) : Except String (Game × LedgerState) :=
  if new_status = GStatus.cancelled ∧ g1.refund_credited_at = none ∧
      g1.bet_debited_at ≠ none then
    exceptStep (apply_transaction led1 total_bet "bet_credit" "refund") fun tl =>
      .ok ({ g1 with refund_credited_at := some () }, tl.2)
  else .ok (g1, led1)

/-- `GameCompleteSerializer` validation plus `update`.  Completing
credits `win_amount * len(winners)` once (guarded by
`payout_credited_at`); cancelling refunds `bet_amount *
len(cartella_numbers)` once, gated only on `bet_debited_at` being set
and `refund_credited_at` unset. -/
def game_complete_update (g : Game) (led : LedgerState) (new_status : GStatus)
    (winners : List ℕ) : Except String (Game × LedgerState) :=
  if new_status ≠ GStatus.completed ∧ new_status ≠ GStatus.cancelled then
    .error "invalid status choice"
  else if g.status = GStatus.completed ∨ g.status = GStatus.cancelled then
    .error "Game is already finalized"
  else if new_status = GStatus.completed ∧ winners.isEmpty then
    .error "At least one winner is required for completed games"
  else if new_status = GStatus.completed ∧
      winners.any (fun w => w ≥ g.cartella_numbers.length) then
    .error "Winner indexes out of range"
  else
    let total_bet := g.bet_amount * (g.cartella_numbers.length : ℚ)
    exceptStep (completePayoutStep g led new_status winners) fun gl1 =>
      exceptStep (cancelRefundStep gl1.1 gl1.2 new_status total_bet) fun gl2 =>
        .ok ({ gl2.1 with
                status := new_status
                winners := winners
                ended_at := gl2.1.ended_at.orElse fun _ => some () },
              gl2.2)

/-! ## Shop-mode Session Coordinator
(`ShopBingoSession`, `games/views.py:154-240, 693-821`) -/

inductive SStatus where
  | waiting | locked | cancelled
  deriving DecidableEq, Repr

/-- The `ShopBingoSession` row.  `session_id` (random unique string)
and timestamps are not modelled. -/
structure Session where
  shop : Shop
  status : SStatus
  fixed_players : ℕ
  min_bet_per_cartella : ℚ
  players_data : List Player
  locked_cartellas : List ℕ
  total_payable : ℚ
  game : Option Game

/-- `_recalculate_session_totals` (`games/views.py:154-169`): the
sorted union of all reserved cartella numbers and the recomputed
total (stored `total_bet` when present, else `bet_per_cartella *
len(cartellas)`). -/
def _recalculate_session_totals (s : Session) : List ℕ × ℚ :=
  let locked := ((s.players_data.flatMap (·.cartella_numbers)).dedup).mergeSort (· ≤ ·)
  let total := (s.players_data.map fun p =>
    match p.total_bet with
    | none => p.bet_per_cartella * (p.cartella_numbers.length : ℚ)
    | some t => t).sum
  (locked, total)

/-- The cut-percentage resolution of `_finalize_shop_session`
(`games/views.py:191-201`): the `cut_percentage` flag, else
`100 - win_percentage` when that flag exists, else 10; clamped. -/
def finalizeCutPercentage (flags : FeatureFlags) : ℚ :=
  let cut_percentage_raw : Option ℚ :=
    optStep flags.cut_percentage
      (optStep flags.win_percentage none fun w => some (100 - w))
      (fun c => some c)
  max 0 (min 100 (cut_percentage_raw.getD 10))

/-- The pending `Game` row created by `_finalize_shop_session`
(`games/views.py:207-234`, draws filled in by `Game.save`):
`bet_debited_at` is stamped although no ledger call is made. -/
def mkShopGame (s : Session) (cartella_boards : List (List ℕ))
    (cartella_map : List (ℕ × ℕ)) (cut_percentage win_percentage : ℚ)
    (rnd : ℕ → ℕ) (posp : ℕ) : Game :=
  { game_mode := GMode.shop_fixed4
    bet_amount := s.min_bet_per_cartella
    min_bet_per_cartella := s.min_bet_per_cartella
    num_players := 4
    win_amount := s.total_payable
    cartella_numbers := cartella_boards
    cartella_number_map := cartella_map
    cartella_draw_sequences :=
      cartellaDrawSequences cartella_boards.length rnd (posp + 75)
    draw_sequence := sample75 rnd posp
    called_numbers := []
    call_cursor := 0
    current_called_number := none
    shop_players_data := s.players_data
    status := GStatus.pending
    winners := []
    banned_cartellas := []
    cartella_statuses := fun _ => "active"
    awarded_claims := []
    total_pool := s.total_payable
    cut_percentage := some cut_percentage
    win_percentage := win_percentage
    payout_amount := 0
    shop_cut_amount := 0
    winning_pattern := ""
    started_at := none
    ended_at := none
    bet_debited_at := some ()
    payout_credited_at := none
    refund_credited_at := none }

/-- The tail of `_finalize_shop_session` once the unique boards have
been generated: cut resolution, pool check, game creation, session
lock.  No ledger operation happens. -/
def finalizeWithBoards (s : Session) (led : LedgerState)
    (all_cartella_numbers : List ℕ) (rnd : ℕ → ℕ)
    (bp : List (List ℕ) × ℕ) : Except String (Game × Session × LedgerState) :=
  let cartella_map := all_cartella_numbers.enum.map fun p => (p.2, p.1)
  let cut_percentage := finalizeCutPercentage s.shop.feature_flags
  let win_percentage := 100 - cut_percentage
  if s.total_payable ≤ 0 then
    .error "Session total payable must be greater than zero before game creation"
  else
    let game := mkShopGame s bp.1 cartella_map cut_percentage win_percentage rnd bp.2
    .ok (game, { s with status := SStatus.locked, game := some game }, led)

/-- The fresh-session branch of `_finalize_shop_session`
(`games/views.py:176-240`). -/
def finalizeFresh (s : Session) (led : LedgerState) (rnd : ℕ → ℕ) (pos : ℕ) :
    Except String (Game × Session × LedgerState) :=
  if s.players_data.length ≠ 4 then
    .error "Exactly 4 players are required before game creation"
  else if ¬ s.players_data.all (·.paid) then
    .error "All 4 players must confirm payment before game creation"
  else
    let all_cartella_numbers := s.players_data.flatMap (·.cartella_numbers)
    if all_cartella_numbers.length > 16 then
      .error "Maximum allowed cartellas is 16"
    else if all_cartella_numbers.dedup.length ≠ all_cartella_numbers.length then
      .error "Duplicate cartella assignment detected"
    else
      exceptStep (_generate_unique_cartella_boards all_cartella_numbers.length rnd pos)
        (finalizeWithBoards s led all_cartella_numbers rnd)

/-- `_finalize_shop_session` (`games/views.py:172-240`).  Returns the
existing game when the session already has one; otherwise requires 4
paid players, generates the boards, and creates the `pending` game.
It stamps `bet_debited_at` but performs no ledger operation: the
ledger state is passed through unchanged. -/
def _finalize_shop_session (s : Session) (led : LedgerState) (rnd : ℕ → ℕ)
    (pos : ℕ) : Except String (Game × Session × LedgerState) :=
  optStep s.game (finalizeFresh s led rnd pos) fun g => .ok (g, s, led)

inductive ReserveResp where
  /-- 400: session no longer open. -/
  | notOpen
  /-- 400: bet below the session floor. -/
  | betTooLow
  /-- 400: paid players cannot change their selection. -/
  | paidFrozen
  /-- 400: session already has 4 players. -/
  | sessionFull
  /-- 400: cartellas already taken by another player. -/
  | duplicate (nums : List ℕ)
  /-- 400: total cartellas would exceed 16. -/
  | capExceeded
  /-- 200: reservation stored. -/
  | reserved
  deriving DecidableEq, Repr

/-- The duplicate check against other players, the upsert, the
16-cartella cap, and the totals recomputation
(`games/views.py:729-769`). -/
def reserveUpsert (s : Session) (led : LedgerState) (player_name : String)
    (cartella_numbers : List ℕ) (bet_per_cartella : ℚ)
    (player_index : Option ℕ) : ReserveResp × Session × LedgerState :=
  let players := s.players_data
  let taken_by_others := (players.enum.filter fun p => some p.1 ≠ player_index).flatMap
    fun p => p.2.cartella_numbers
  let duplicate_set := cartella_numbers.filter (· ∈ taken_by_others)
  if duplicate_set ≠ [] then (.duplicate duplicate_set, s, led)
  else
    let player_total := bet_per_cartella * (cartella_numbers.length : ℚ)
    let payload : Player :=
      { player_name := player_name
        cartella_numbers := cartella_numbers
        bet_per_cartella := bet_per_cartella
        total_bet := some player_total
        paid := false }
    let players' := optStep player_index (players ++ [payload]) fun i =>
      players.set i { payload with
        paid := (players.getD i default).paid
        paid_at := (players.getD i default).paid_at }
    let total_cartellas : ℕ := (players'.map fun p => p.cartella_numbers.length).sum
    if total_cartellas > 16 then (.capExceeded, s, led)
    else
      let s' := { s with players_data := players' }
      let totals := _recalculate_session_totals s'
      (.reserved,
        { s' with locked_cartellas := totals.1, total_payable := totals.2 },
        led)

/-- `ShopBingoSessionReserveView.post` (`games/views.py:693-769`).
The view performs no ledger operation; the ledger state is passed
through unchanged.  Player lookup is case-insensitive. -/
def session_reserve (s : Session) (led : LedgerState) (player_name : String)
    (cartella_numbers : List ℕ) (bet_per_cartella : ℚ) :
    ReserveResp × Session × LedgerState :=
  if s.status ≠ SStatus.waiting then (.notOpen, s, led)
  else if bet_per_cartella < s.min_bet_per_cartella then (.betTooLow, s, led)
  else
    let players := s.players_data
    optStep (players.findIdx? fun p => lowerStr p.player_name = lowerStr player_name)
      (if players.length ≥ s.fixed_players then (.sessionFull, s, led)
       else reserveUpsert s led player_name cartella_numbers bet_per_cartella none)
      fun i =>
        if (players.getD i default).paid then (.paidFrozen, s, led)
        else reserveUpsert s led player_name cartella_numbers bet_per_cartella (some i)

inductive ConfirmResp where
  /-- 404: player not found in session. -/
  | notFound
  /-- 400: player has no cartellas selected. -/
  | noCartellas
  /-- 400: `_finalize_shop_session` raised `ValueError`.  The payment
  mark is still committed (the view returns from within the atomic
  block, which does not roll back). -/
  | finalizeFailed (e : String)
  /-- 200: `game_created` flag and, when created or already existing,
  the game. -/
  | ok (game_created : Bool) (game : Option Game)

/-- The finalize call inside the confirm-payment view: a `ValueError`
becomes a 400 response, but the payment mark already saved to `s2`
stays committed (the view returns from inside the atomic block). -/
def confirmFinalize (s2 : Session) (led : LedgerState) (rnd : ℕ → ℕ) (pos : ℕ) :
    ConfirmResp × Session × LedgerState :=
  match _finalize_shop_session s2 led rnd pos with
  | .error e => (.finalizeFailed e, s2, led)
  | .ok (game, s3, led') => (.ok true (some game), s3, led')

/-- `ShopBingoSessionConfirmPaymentView.post`
(`games/views.py:772-821`): marks the named player paid, recomputes
totals, and triggers finalize once all `fixed_players` players are
present and paid. -/
def confirm_payment (s : Session) (led : LedgerState) (player_name : String)
    (rnd : ℕ → ℕ) (pos : ℕ) : ConfirmResp × Session × LedgerState :=
  let players := s.players_data
  optStep (players.findIdx? fun p => lowerStr p.player_name = lowerStr player_name)
    (.notFound, s, led)
    fun i =>
      if (players.getD i default).cartella_numbers = [] then (.noCartellas, s, led)
      else
        let players' := players.set i
          { players.getD i default with paid := true, paid_at := some () }
        let s1 := { s with players_data := players' }
        let totals := _recalculate_session_totals s1
        let s2 := { s1 with locked_cartellas := totals.1, total_payable := totals.2 }
        if players'.length = s2.fixed_players ∧ players'.all (·.paid) then
          confirmFinalize s2 led rnd pos
        else (.ok false none, s2, led)

/-! ## Auxiliary definitions for the statements and witnesses -/

/-- The call-state invariant of a `Game` (spec §3): `called_numbers`
is exactly the length-`call_cursor` front segment of `draw_sequence`
and `call_cursor` counts it. -/
def CallInv (g : Game) : Prop :=
  g.called_numbers = g.draw_sequence.take g.call_cursor ∧
  g.call_cursor = g.called_numbers.length

/-- A concrete game used as the base of witness inputs. -/
def baseGame : Game :=
  { game_mode := GMode.standard
    bet_amount := 10
    min_bet_per_cartella := 20
    num_players := 1
    win_amount := 50
    cartella_numbers := []
    cartella_number_map := []
    cartella_draw_sequences := []
    draw_sequence := []
    called_numbers := []
    call_cursor := 0
    current_called_number := none
    shop_players_data := []
    status := GStatus.active
    winners := []
    banned_cartellas := []
    cartella_statuses := fun _ => "active"
    awarded_claims := []
    total_pool := 0
    cut_percentage := some 10
    win_percentage := 90
    payout_amount := 0
    shop_cut_amount := 0
    winning_pattern := ""
    started_at := some ()
    ended_at := none
    bet_debited_at := some ()
    payout_credited_at := none
    refund_credited_at := none }

/-- The identity random stream, used for concrete evaluations. -/
def rndId : ℕ → ℕ := fun i => i

/-- A concrete one-cartella game whose five-number draw sequence
completes the cartella's first row, for the false-claim witness. -/
def gameC6 : Game :=
  { baseGame with
      cartella_numbers := [List.range' 1 25]
      draw_sequence := [1, 2, 3, 4, 5] }

/-- The total pool resolved by `_resolve_game_financials`: the stored
pool when positive, else `bet_amount * cartella_count`. -/
def effectivePool (g : Game) : ℚ :=
  if g.total_pool > 0 then g.total_pool
  else g.bet_amount * (g.cartella_numbers.length : ℚ)

/-- The cut percentage resolved by `_resolve_game_financials`
(default 10, clamped to [0, 100]). -/
def clampedCut (g : Game) : ℚ := max 0 (min 100 (g.cut_percentage.getD 10))

/-- The shop cut resolved by `_resolve_game_financials`. -/
def shopCutOf (g : Game) : ℚ := quantize2 (effectivePool g * clampedCut g / 100)

/-- The game produced by a successful fresh finalize, as a function of
the session, the stream and the generated boards. -/
def finalizedGame (s : Session) (rnd : ℕ → ℕ) (bp : List (List ℕ) × ℕ) : Game :=
  mkShopGame s bp.1
    ((s.players_data.flatMap (·.cartella_numbers)).enum.map fun p => (p.2, p.1))
    (finalizeCutPercentage s.shop.feature_flags)
    (100 - finalizeCutPercentage s.shop.feature_flags) rnd bp.2

/-- The ledger state a finalize run ends with (`none` on failure). -/
def finalizeLedger (s : Session) (led : LedgerState) (rnd : ℕ → ℕ) (pos : ℕ) :
    Option LedgerState :=
  match _finalize_shop_session s led rnd pos with
  | .ok (_, _, l) => some l
  | .error _ => none

/-- `Except.isOk` as a plain Boolean. -/
def exceptIsOk {α : Type} : Except String α → Bool
  | .ok _ => true
  | .error _ => false

/-- A concrete paid player holding one cartella, for witnesses. -/
def playerC (name : String) (n : ℕ) : Player :=
  { player_name := name, cartella_numbers := [n], bet_per_cartella := 20,
    total_bet := some 20, paid := true, paid_at := some () }

/-- A concrete shop with empty feature flags. -/
def shopC : Shop := ⟨{}⟩

/-- A concrete ready-to-finalize session: 4 paid players, one cartella
each at 20 ETB, total payable 80. -/
def sessionC : Session :=
  { shop := shopC, status := SStatus.waiting, fixed_players := 4,
    min_bet_per_cartella := 20,
    players_data := [playerC "P1" 1, playerC "P2" 2, playerC "P3" 3, playerC "P4" 4],
    locked_cartellas := [1, 2, 3, 4], total_payable := 80, game := none }

/-- A concrete wallet state. -/
def ledC : LedgerState := ⟨100, []⟩

/-! ## Theorems -/

/-- Credit and debit type sets are disjoint. -/
theorem credit_not_debit {ty : String} (h : ty ∈ CREDIT_TYPES) :
    ty ∉ DEBIT_TYPES := by
  simp only [CREDIT_TYPES, List.mem_cons, List.not_mem_nil, or_false] at h
  rcases h with rfl | rfl | rfl <;> decide

/-- Debit types are known types. -/
theorem debit_mem_all {ty : String} (h : ty ∈ DEBIT_TYPES) : ty ∈ ALL_TYPES := by
  simp only [ALL_TYPES, List.mem_append]
  exact Or.inr h

/-- C1: `apply_transaction` rejects a non-positive amount, an unknown
type, and a debit that would drive the balance negative, raising an
error and leaving the wallet balance and the transaction log
untouched. -/
theorem apply_transaction_rejects_invalid (st : LedgerState) (amount : ℚ)
    (ty ref : String)
    (h : amount ≤ 0 ∨ ty ∉ ALL_TYPES ∨ (ty ∈ DEBIT_TYPES ∧ st.balance - amount < 0)) :
    (∃ e, apply_transaction st amount ty ref = .error e) ∧
    apply_transaction_state st amount ty ref = st := by
  by_cases h1 : amount ≤ 0
  · constructor
    · exact ⟨"Amount must be positive", by simp [apply_transaction, h1]⟩
    · simp [apply_transaction_state, apply_transaction, h1]
  · rcases h with h | h | ⟨hd, hb⟩
    · exact absurd h h1
    · constructor
      · exact ⟨"Unknown transaction type", by simp [apply_transaction, h1, h]⟩
      · simp [apply_transaction_state, apply_transaction, h1, h]
    · have hall : ty ∈ ALL_TYPES := debit_mem_all hd
      have hnc : ty ∉ CREDIT_TYPES := fun hc => credit_not_debit hc hd
      have hneg : st.balance + -amount < 0 := by linarith [hb]
      constructor
      · exact ⟨"Insufficient balance", by simp [apply_transaction, h1, hall, hnc, hneg]⟩
      · simp [apply_transaction_state, apply_transaction, h1, hall, hnc, hneg]

theorem apply_transaction_rejects_invalid_witness :
    (∃ e, apply_transaction ⟨5, []⟩ 10 "withdrawal" "w" = .error e) ∧
    apply_transaction_state ⟨5, []⟩ 10 "withdrawal" "w" = ⟨5, []⟩ :=
  apply_transaction_rejects_invalid ⟨5, []⟩ 10 "withdrawal" "w"
    (Or.inr (Or.inr ⟨by decide, by norm_num⟩))

/-- C4: a successful `apply_transaction` returns a row whose
`balance_after` is `balance_before + amount` for credit types and
`balance_before - amount` for debit types, with `balance_after ≥ 0`;
the persisted wallet balance equals `balance_after` and exactly one
row is appended to the log. -/
theorem apply_transaction_success_spec (st : LedgerState) (amount : ℚ)
    (ty ref : String) (tx : Transaction) (st' : LedgerState)
    (h : apply_transaction st amount ty ref = .ok (tx, st')) :
    (ty ∈ CREDIT_TYPES → tx.balance_after = tx.balance_before + amount) ∧
    (ty ∈ DEBIT_TYPES → tx.balance_after = tx.balance_before - amount) ∧
    0 ≤ tx.balance_after ∧
    st'.balance = tx.balance_after ∧
    st'.txs = st.txs ++ [tx] ∧
    tx.balance_before = st.balance ∧ tx.amount = amount ∧ tx.tx_type = ty := by
  unfold apply_transaction at h
  by_cases h1 : amount ≤ 0
  · simp [h1] at h
  · by_cases h2 : ty ∈ ALL_TYPES
    · by_cases hc : ty ∈ CREDIT_TYPES
      · by_cases hneg : st.balance + amount < 0
        · simp [h1, h2, hc, hneg] at h
        · simp [h1, h2, hc, hneg, Except.ok.injEq, Prod.mk.injEq] at h
          obtain ⟨htx, hst⟩ := h
          subst htx; subst hst
          refine ⟨fun _ => rfl, fun hd => absurd hd (credit_not_debit hc),
            by simpa using not_lt.mp hneg, rfl, rfl, rfl, rfl, rfl⟩
      · by_cases hneg : st.balance + -amount < 0
        · simp [h1, h2, hc, hneg] at h
        · simp [h1, h2, hc, hneg, Except.ok.injEq, Prod.mk.injEq] at h
          obtain ⟨htx, hst⟩ := h
          subst htx; subst hst
          refine ⟨fun hcc => absurd hcc hc, fun _ => by simp; ring,
            by simpa using not_lt.mp hneg, rfl, rfl, rfl, rfl, rfl⟩
    · simp [h1, h2] at h

theorem apply_transaction_success_spec_witness :
    ("deposit" ∈ CREDIT_TYPES →
      (130 : ℚ) = 100 + 30) ∧
    ("deposit" ∈ DEBIT_TYPES → (130 : ℚ) = 100 - 30) ∧
    (0 : ℚ) ≤ 130 ∧
    (130 : ℚ) = 130 ∧
    ([⟨"deposit", 30, 100, 130, "r"⟩] : List Transaction) =
      [] ++ [⟨"deposit", 30, 100, 130, "r"⟩] ∧
    (100 : ℚ) = 100 ∧ (30 : ℚ) = 30 ∧ "deposit" = "deposit" :=
  apply_transaction_success_spec ⟨100, []⟩ 30 "deposit" "r"
    ⟨"deposit", 30, 100, 130, "r"⟩ ⟨130, [⟨"deposit", 30, 100, 130, "r"⟩]⟩
    (by norm_num [apply_transaction, ALL_TYPES, CREDIT_TYPES, DEBIT_TYPES])

/-- C5: one next-call invocation on an active game either signals
completion with no mutation (cursor at the end of the draw sequence)
or appends `draw_sequence[call_cursor]` and increments the cursor; the
call-state invariant is preserved, and with a duplicate-free draw
sequence the called numbers stay duplicate-free.  A non-active game is
rejected unchanged. -/
theorem gameNextCall_spec (g : Game) (hinv : CallInv g)
    (hnd : g.draw_sequence.Nodup) :
    CallInv (gameNextCall g).2 ∧
    (gameNextCall g).2.called_numbers.Nodup ∧
    (g.status ≠ GStatus.active → gameNextCall g = (.notActive, g)) ∧
    (g.status = GStatus.active → g.call_cursor ≥ g.draw_sequence.length →
      gameNextCall g = (.complete, g)) ∧
    (g.status = GStatus.active → g.call_cursor < g.draw_sequence.length →
      (gameNextCall g).2.called_numbers =
        g.called_numbers ++ [g.draw_sequence.getD g.call_cursor 0] ∧
      (gameNextCall g).2.call_cursor = g.call_cursor + 1 ∧
      (gameNextCall g).1 = .called (g.draw_sequence.getD g.call_cursor 0) ∧
      (gameNextCall g).2.draw_sequence = g.draw_sequence ∧
      (gameNextCall g).2.status = g.status) := by
  have hnodup_called : g.called_numbers.Nodup := by
    rw [hinv.1]; exact (List.take_sublist _ _).nodup hnd
  by_cases hact : g.status = GStatus.active
  · by_cases hcur : g.call_cursor ≥ g.draw_sequence.length
    · have heq : gameNextCall g = (.complete, g) := by
        simp [gameNextCall, hact, hcur]
      refine ⟨by rw [heq]; exact hinv, by rw [heq]; exact hnodup_called,
        fun hh => absurd hact hh, fun _ _ => heq, fun _ hlt => absurd hlt (by omega)⟩
    · push_neg at hcur
      have heq : (gameNextCall g).2 =
          { g with
            called_numbers := g.called_numbers ++ [g.draw_sequence.getD g.call_cursor 0]
            call_cursor := g.call_cursor + 1
            current_called_number := some (g.draw_sequence.getD g.call_cursor 0) } := by
        simp [gameNextCall, hact, not_le.mpr hcur]
      have htake : g.draw_sequence.take (g.call_cursor + 1) =
          g.draw_sequence.take g.call_cursor ++ [g.draw_sequence.getD g.call_cursor 0] := by
        rw [List.take_succ, List.getElem?_eq_getElem hcur, List.getD_eq_getElem _ _ hcur]
        rfl
      have hcalled' : (gameNextCall g).2.called_numbers =
          g.called_numbers ++ [g.draw_sequence.getD g.call_cursor 0] := by rw [heq]
      have hinv' : CallInv (gameNextCall g).2 := by
        constructor
        · rw [heq]
          show g.called_numbers ++ _ = g.draw_sequence.take (g.call_cursor + 1)
          rw [htake, hinv.1]
        · rw [heq]
          show g.call_cursor + 1 = (g.called_numbers ++ _).length
          simp [← hinv.2]
      refine ⟨hinv', ?_, fun hh => absurd hact hh,
        fun _ hge => absurd hcur (by omega), fun _ _ => ⟨hcalled', by rw [heq], ?_, by rw [heq], by rw [heq]⟩⟩
      · rw [hcalled', hinv.1, ← htake]
        exact (List.take_sublist _ _).nodup hnd
      · simp [gameNextCall, hact, not_le.mpr hcur]
  · have heq : gameNextCall g = (.notActive, g) := by simp [gameNextCall, hact]
    exact ⟨by rw [heq]; exact hinv, by rw [heq]; exact hnodup_called,
      fun _ => heq, fun hh => absurd hh hact, fun hh => absurd hh hact⟩

theorem gameNextCall_spec_witness :
    (gameNextCall { baseGame with draw_sequence := [3, 1, 2] }).2.called_numbers.Nodup :=
  (gameNextCall_spec { baseGame with draw_sequence := [3, 1, 2] }
    ⟨rfl, rfl⟩ (by decide)).2.1

/-! ### Sampling lemmas -/

theorem length_sampleAux (rnd : ℕ → ℕ) :
    ∀ (k : ℕ) (pool : List ℕ) (pos : ℕ), (sampleAux rnd pool k pos).length = k
  | 0, _, _ => rfl
  | k + 1, pool, pos => by
    simp [sampleAux, length_sampleAux rnd k]

theorem mem_sampleAux (rnd : ℕ → ℕ) :
    ∀ (k : ℕ) (pool : List ℕ) (pos : ℕ), k ≤ pool.length →
      ∀ x ∈ sampleAux rnd pool k pos, x ∈ pool
  | 0, _, _, _, x, hx => by simp [sampleAux] at hx
  | k + 1, pool, pos, hk, x, hx => by
    have hpos : 0 < pool.length := by omega
    have hidx : rnd pos % pool.length < pool.length := Nat.mod_lt _ hpos
    simp only [sampleAux, List.mem_cons] at hx
    rcases hx with rfl | hx
    · rw [List.getD_eq_getElem _ _ hidx]
      exact List.getElem_mem hidx
    · have hk' : k ≤ (pool.eraseIdx (rnd pos % pool.length)).length := by
        rw [List.length_eraseIdx]
        simp only [hidx, if_true]
        omega
      exact List.eraseIdx_subset _ _ (mem_sampleAux rnd k _ (pos + 1) hk' x hx)

theorem nodup_sampleAux (rnd : ℕ → ℕ) :
    ∀ (k : ℕ) (pool : List ℕ) (pos : ℕ), k ≤ pool.length → pool.Nodup →
      (sampleAux rnd pool k pos).Nodup
  | 0, _, _, _, _ => by simp [sampleAux]
  | k + 1, pool, pos, hk, hnd => by
    have hpos : 0 < pool.length := by omega
    have hidx : rnd pos % pool.length < pool.length := Nat.mod_lt _ hpos
    have hk' : k ≤ (pool.eraseIdx (rnd pos % pool.length)).length := by
      rw [List.length_eraseIdx]
      simp only [hidx, if_true]
      omega
    simp only [sampleAux, List.nodup_cons]
    refine ⟨?_, nodup_sampleAux rnd k _ (pos + 1) hk' (hnd.eraseIdx _)⟩
    intro hmem
    have hmem' : pool.getD (rnd pos % pool.length) 0 ∈
        pool.eraseIdx (rnd pos % pool.length) :=
      mem_sampleAux rnd k _ (pos + 1) hk' _ hmem
    rw [List.getD_eq_getElem _ _ hidx, List.mem_eraseIdx_iff_getElem] at hmem'
    obtain ⟨i, hi, hne, heq⟩ := hmem'
    exact hne ((hnd.getElem_inj_iff).mp heq)

/-- Replacing an element with a value not present in a duplicate-free
list keeps it duplicate-free. -/
theorem nodup_set_of_not_mem :
    ∀ {l : List ℕ} (i : ℕ) {a : ℕ}, l.Nodup → a ∉ l → (l.set i a).Nodup
  | [], _, _, _, _ => by simp
  | x :: xs, 0, a, hnd, ha => by
    simp only [List.set]
    rw [List.nodup_cons] at hnd ⊢
    exact ⟨fun hmem => ha (List.mem_cons_of_mem _ hmem), hnd.2⟩
  | x :: xs, i + 1, a, hnd, ha => by
    simp only [List.set]
    rw [List.nodup_cons] at hnd ⊢
    refine ⟨?_, nodup_set_of_not_mem i hnd.2 fun hmem => ha (List.mem_cons_of_mem _ hmem)⟩
    intro hmem
    rcases List.mem_or_eq_of_mem_set hmem with hmem' | rfl
    · exact hnd.1 hmem'
    · exact ha (List.mem_cons_self _ _)

/-- `getD` at an index different from the one `set`. -/
theorem getD_set_ne (l : List ℕ) (i j a : ℕ) (hne : i ≠ j) (hj : j < l.length) :
    (l.set i a).getD j 0 = l.getD j 0 := by
  rw [List.getD_eq_getElem _ _ (by simpa using hj), List.getD_eq_getElem _ _ hj,
    List.getElem_set_ne hne]

/-- Decomposition of `_generate_cartella_board`: setting index 12 of
the 25-cell concatenation rewrites cell 2 of the middle column. -/
theorem generate_board_eq (rnd : ℕ → ℕ) (pos : ℕ) :
    _generate_cartella_board rnd pos =
      sampleAux rnd (List.range' 1 15) 5 pos ++
      sampleAux rnd (List.range' 16 15) 5 (pos + 5) ++
      (sampleAux rnd (List.range' 31 15) 5 (pos + 10)).set 2 0 ++
      sampleAux rnd (List.range' 46 15) 5 (pos + 15) ++
      sampleAux rnd (List.range' 61 15) 5 (pos + 20) := by
  unfold _generate_cartella_board
  simp only [List.set_append, List.length_append, length_sampleAux]
  norm_num

/-- Element lookup in a concatenation of five 5-element blocks. -/
theorem getD_five_append (c0 c1 c2 c3 c4 : List ℕ)
    (h0 : c0.length = 5) (h1 : c1.length = 5) (h2 : c2.length = 5)
    (h3 : c3.length = 5) (i : ℕ) :
    (c0 ++ c1 ++ c2 ++ c3 ++ c4).getD i 0 =
      if i < 5 then c0.getD i 0
      else if i < 10 then c1.getD (i - 5) 0
      else if i < 15 then c2.getD (i - 10) 0
      else if i < 20 then c3.getD (i - 15) 0
      else c4.getD (i - 20) 0 := by
  have L01 : (c0 ++ c1).length = 10 := by simp [h0, h1]
  have L012 : (c0 ++ c1 ++ c2).length = 15 := by simp [h0, h1, h2]
  have L0123 : (c0 ++ c1 ++ c2 ++ c3).length = 20 := by simp [h0, h1, h2, h3]
  by_cases k0 : i < 5
  · rw [List.getD_append _ _ _ _ (by omega : i < (c0 ++ c1 ++ c2 ++ c3).length),
      List.getD_append _ _ _ _ (by omega : i < (c0 ++ c1 ++ c2).length),
      List.getD_append _ _ _ _ (by omega : i < (c0 ++ c1).length),
      List.getD_append _ _ _ _ (by omega : i < c0.length)]
    simp [k0]
  · by_cases k1 : i < 10
    · rw [List.getD_append _ _ _ _ (by omega : i < (c0 ++ c1 ++ c2 ++ c3).length),
        List.getD_append _ _ _ _ (by omega : i < (c0 ++ c1 ++ c2).length),
        List.getD_append _ _ _ _ (by omega : i < (c0 ++ c1).length),
        List.getD_append_right _ _ _ _ (by omega : c0.length ≤ i), h0]
      simp [k0, k1]
    · by_cases k2 : i < 15
      · rw [List.getD_append _ _ _ _ (by omega : i < (c0 ++ c1 ++ c2 ++ c3).length),
          List.getD_append _ _ _ _ (by omega : i < (c0 ++ c1 ++ c2).length),
          List.getD_append_right _ _ _ _ (by omega : (c0 ++ c1).length ≤ i), L01]
        simp [k0, k1, k2]
      · by_cases k3 : i < 20
        · rw [List.getD_append _ _ _ _ (by omega : i < (c0 ++ c1 ++ c2 ++ c3).length),
            List.getD_append_right _ _ _ _ (by omega : (c0 ++ c1 ++ c2).length ≤ i), L012]
          simp [k0, k1, k2, k3]
        · rw [List.getD_append_right _ _ _ _ (by omega : (c0 ++ c1 ++ c2 ++ c3).length ≤ i),
            L0123]
          simp [k0, k1, k2, k3]

/-- The five consecutive 5-cell groups of a 25-cell concatenation. -/
theorem five_append_groups (c0 c1 c2 c3 c4 : List ℕ)
    (h0 : c0.length = 5) (h1 : c1.length = 5) (h2 : c2.length = 5)
    (h3 : c3.length = 5) (h4 : c4.length = 5) :
    ((c0 ++ c1 ++ c2 ++ c3 ++ c4).drop 0).take 5 = c0 ∧
    ((c0 ++ c1 ++ c2 ++ c3 ++ c4).drop 5).take 5 = c1 ∧
    ((c0 ++ c1 ++ c2 ++ c3 ++ c4).drop 10).take 5 = c2 ∧
    ((c0 ++ c1 ++ c2 ++ c3 ++ c4).drop 15).take 5 = c3 ∧
    ((c0 ++ c1 ++ c2 ++ c3 ++ c4).drop 20).take 5 = c4 := by
  have hB1 : c0 ++ c1 ++ c2 ++ c3 ++ c4 = c0 ++ (c1 ++ (c2 ++ (c3 ++ c4))) := by
    simp [List.append_assoc]
  have hB2 : c0 ++ c1 ++ c2 ++ c3 ++ c4 = (c0 ++ c1) ++ (c2 ++ (c3 ++ c4)) := by
    simp [List.append_assoc]
  have hB3 : c0 ++ c1 ++ c2 ++ c3 ++ c4 = (c0 ++ c1 ++ c2) ++ (c3 ++ c4) := by
    simp [List.append_assoc]
  have hB4 : c0 ++ c1 ++ c2 ++ c3 ++ c4 = (c0 ++ c1 ++ c2 ++ c3) ++ c4 := rfl
  refine ⟨?_, ?_, ?_, ?_, ?_⟩
  · rw [List.drop_zero, hB1, List.take_left' h0]
  · rw [hB1, List.drop_left' h0, List.take_left' h1]
  · rw [hB2, List.drop_left' (by simp [h0, h1]), List.take_left' h2]
  · rw [hB3, List.drop_left' (by simp [h0, h1, h2]), List.take_left' h3]
  · rw [hB4, List.drop_left' (by simp [h0, h1, h2, h3]), ← h4, List.take_length]

/-- Membership bounds for a sampled column. -/
theorem sample_col_bounds (rnd : ℕ → ℕ) (lo pos : ℕ) {x : ℕ}
    (hx : x ∈ sampleAux rnd (List.range' lo 15) 5 pos) :
    lo ≤ x ∧ x < lo + 15 := by
  have := mem_sampleAux rnd 5 (List.range' lo 15) pos (by simp) x hx
  exact List.mem_range'_1.mp this

/-- C9: every generated board has 25 cells, value 0 at index 12, no
repeats inside each of the five consecutive 5-cell groups, and every
non-center cell of group `j = i / 5` lies in the range
`[15*j + 1, 15*j + 15]` — the disjoint B/I/N/G/O ranges. -/
theorem generate_board_spec (rnd : ℕ → ℕ) (pos : ℕ) :
    (_generate_cartella_board rnd pos).length = 25 ∧
    (_generate_cartella_board rnd pos).getD 12 0 = 0 ∧
    (∀ j, j < 5 → (((_generate_cartella_board rnd pos).drop (5 * j)).take 5).Nodup) ∧
    (∀ i, i < 25 → i ≠ 12 →
      15 * (i / 5) + 1 ≤ (_generate_cartella_board rnd pos).getD i 0 ∧
      (_generate_cartella_board rnd pos).getD i 0 ≤ 15 * (i / 5) + 15) := by
  have l0 := length_sampleAux rnd 5 (List.range' 1 15) pos
  have l1 := length_sampleAux rnd 5 (List.range' 16 15) (pos + 5)
  have l2 := length_sampleAux rnd 5 (List.range' 31 15) (pos + 10)
  have l3 := length_sampleAux rnd 5 (List.range' 46 15) (pos + 15)
  have l4 := length_sampleAux rnd 5 (List.range' 61 15) (pos + 20)
  have l2' : ((sampleAux rnd (List.range' 31 15) 5 (pos + 10)).set 2 0).length = 5 := by
    simp [l2]
  have hnd0 := nodup_sampleAux rnd 5 (List.range' 1 15) pos (by simp) (List.nodup_range' _ _)
  have hnd1 := nodup_sampleAux rnd 5 (List.range' 16 15) (pos + 5) (by simp) (List.nodup_range' _ _)
  have hnd2 := nodup_sampleAux rnd 5 (List.range' 31 15) (pos + 10) (by simp) (List.nodup_range' _ _)
  have hnd3 := nodup_sampleAux rnd 5 (List.range' 46 15) (pos + 15) (by simp) (List.nodup_range' _ _)
  have hnd4 := nodup_sampleAux rnd 5 (List.range' 61 15) (pos + 20) (by simp) (List.nodup_range' _ _)
  have hzero2 : (0 : ℕ) ∉ sampleAux rnd (List.range' 31 15) 5 (pos + 10) := by
    intro hmem
    have := (sample_col_bounds rnd 31 (pos + 10) hmem).1
    omega
  have hnd2' := nodup_set_of_not_mem 2 hnd2 hzero2
  rw [generate_board_eq]
  obtain ⟨g0, g1, g2, g3, g4⟩ := five_append_groups _ _ _ _ _ l0 l1 l2' l3 l4
  refine ⟨by simp [l0, l1, l2, l3, l4], ?_, ?_, ?_⟩
  · rw [getD_five_append _ _ _ _ _ l0 l1 l2' l3]
    rw [if_neg (by omega), if_neg (by omega), if_pos (by omega)]
    rw [List.getD_eq_getElem _ _
      (by omega : 12 - 10 < ((sampleAux rnd (List.range' 31 15) 5 (pos + 10)).set 2 0).length)]
    rw [List.getElem_set]
    norm_num
  · intro j hj
    interval_cases j
    · rw [show 5 * 0 = 0 by norm_num, g0]; exact hnd0
    · rw [show 5 * 1 = 5 by norm_num, g1]; exact hnd1
    · rw [show 5 * 2 = 10 by norm_num, g2]; exact hnd2'
    · rw [show 5 * 3 = 15 by norm_num, g3]; exact hnd3
    · rw [show 5 * 4 = 20 by norm_num, g4]; exact hnd4
  · intro i hi h12
    rw [getD_five_append _ _ _ _ _ l0 l1 l2' l3]
    by_cases k0 : i < 5
    · have hdiv : i / 5 = 0 := by omega
      simp only [k0, if_true, hdiv]
      have hmem : (sampleAux rnd (List.range' 1 15) 5 pos).getD i 0 ∈
          sampleAux rnd (List.range' 1 15) 5 pos := by
        rw [List.getD_eq_getElem _ _ (by omega : i < (sampleAux rnd (List.range' 1 15) 5 pos).length)]
        exact List.getElem_mem _
      have := sample_col_bounds rnd 1 pos hmem
      omega
    · by_cases k1 : i < 10
      · have hdiv : i / 5 = 1 := by omega
        simp only [k0, k1, if_true, if_false, hdiv]
        have hmem : (sampleAux rnd (List.range' 16 15) 5 (pos + 5)).getD (i - 5) 0 ∈
            sampleAux rnd (List.range' 16 15) 5 (pos + 5) := by
          rw [List.getD_eq_getElem _ _ (by omega : i - 5 < (sampleAux rnd (List.range' 16 15) 5 (pos + 5)).length)]
          exact List.getElem_mem _
        have := sample_col_bounds rnd 16 (pos + 5) hmem
        omega
      · by_cases k2 : i < 15
        · have hdiv : i / 5 = 2 := by omega
          simp only [k0, k1, k2, if_true, if_false, hdiv]
          rw [getD_set_ne _ _ _ _ (by omega : 2 ≠ i - 10) (by omega : i - 10 < (sampleAux rnd (List.range' 31 15) 5 (pos + 10)).length)]
          have hmem : (sampleAux rnd (List.range' 31 15) 5 (pos + 10)).getD (i - 10) 0 ∈
              sampleAux rnd (List.range' 31 15) 5 (pos + 10) := by
            rw [List.getD_eq_getElem _ _ (by omega : i - 10 < (sampleAux rnd (List.range' 31 15) 5 (pos + 10)).length)]
            exact List.getElem_mem _
          have := sample_col_bounds rnd 31 (pos + 10) hmem
          omega
        · by_cases k3 : i < 20
          · have hdiv : i / 5 = 3 := by omega
            simp only [k0, k1, k2, k3, if_true, if_false, hdiv]
            have hmem : (sampleAux rnd (List.range' 46 15) 5 (pos + 15)).getD (i - 15) 0 ∈
                sampleAux rnd (List.range' 46 15) 5 (pos + 15) := by
              rw [List.getD_eq_getElem _ _ (by omega : i - 15 < (sampleAux rnd (List.range' 46 15) 5 (pos + 15)).length)]
              exact List.getElem_mem _
            have := sample_col_bounds rnd 46 (pos + 15) hmem
            omega
          · have hdiv : i / 5 = 4 := by omega
            simp only [k0, k1, k2, k3, if_true, if_false, hdiv]
            have hmem : (sampleAux rnd (List.range' 61 15) 5 (pos + 20)).getD (i - 20) 0 ∈
                sampleAux rnd (List.range' 61 15) 5 (pos + 20) := by
              rw [List.getD_eq_getElem _ _ (by omega : i - 20 < (sampleAux rnd (List.range' 61 15) 5 (pos + 20)).length)]
              exact List.getElem_mem _
            have := sample_col_bounds rnd 61 (pos + 20) hmem
            omega

theorem generate_board_spec_witness :
    (_generate_cartella_board rndId 0).length = 25 :=
  (generate_board_spec rndId 0).1

/-! ### Rounding lemmas -/

theorem floor_int_add_half (z : ℤ) : ⌊(z : ℚ) + 1/2⌋ = z := by
  rw [add_comm, Int.floor_add_int]
  norm_num

/-- `quantize2` is the identity on 2-decimal values. -/
theorem quantize2_eq_self {q : ℚ} (h : Is2dp q) : quantize2 q = q := by
  obtain ⟨z, rfl⟩ := h
  unfold quantize2
  by_cases hneg : (z : ℚ) / 100 < 0
  · rw [if_pos hneg]
    have h1 : -((z : ℚ) / 100) * 100 = ((-z : ℤ) : ℚ) := by push_cast; ring
    rw [h1, floor_int_add_half]
    push_cast; ring
  · rw [if_neg hneg]
    have h1 : (z : ℚ) / 100 * 100 = (z : ℚ) := by field_simp
    rw [h1, floor_int_add_half]

/-- `quantize2` always produces a 2-decimal value. -/
theorem is2dp_quantize2 (q : ℚ) : Is2dp (quantize2 q) := by
  unfold quantize2
  by_cases hneg : q < 0
  · exact ⟨-⌊(-q) * 100 + 1/2⌋, by rw [if_pos hneg]; push_cast; ring⟩
  · exact ⟨⌊q * 100 + 1/2⌋, by rw [if_neg hneg]⟩

theorem is2dp_sub {a b : ℚ} (ha : Is2dp a) (hb : Is2dp b) : Is2dp (a - b) := by
  obtain ⟨x, rfl⟩ := ha
  obtain ⟨y, rfl⟩ := hb
  exact ⟨x - y, by push_cast; ring⟩

theorem is2dp_mul_nat {a : ℚ} (ha : Is2dp a) (n : ℕ) : Is2dp (a * (n : ℚ)) := by
  obtain ⟨x, rfl⟩ := ha
  exact ⟨x * n, by push_cast; ring⟩

theorem quantize2_nonneg {q : ℚ} (h : 0 ≤ q) : 0 ≤ quantize2 q := by
  unfold quantize2
  rw [if_neg (not_lt.mpr h)]
  have : (0 : ℤ) ≤ ⌊q * 100 + 1/2⌋ := Int.floor_nonneg.mpr (by linarith)
  positivity

/-- `_resolve_game_financials` in terms of the named abbreviations. -/
theorem resolve_game_financials_eq (g : Game) :
    _resolve_game_financials g =
      (effectivePool g, quantize2 (effectivePool g - shopCutOf g), shopCutOf g) := rfl

theorem is2dp_effectivePool {g : Game} (hp : Is2dp g.total_pool)
    (hb : Is2dp g.bet_amount) : Is2dp (effectivePool g) := by
  unfold effectivePool
  by_cases h : g.total_pool > 0
  · rw [if_pos h]; exact hp
  · rw [if_neg h]; exact is2dp_mul_nat hb _

/-! ### Claim adjudication lemmas -/

/-- A non-active game rejects every claim unchanged. -/
theorem gameClaim_not_active (g : Game) (led : LedgerState) (i : ℤ)
    (p : Option String) (h : g.status ≠ GStatus.active) :
    gameClaim g led i p = (.notActive, g, led) := by
  unfold gameClaim
  rw [if_pos h]

theorem apply_transaction_state_nonpos (st : LedgerState) {amount : ℚ}
    (ty ref : String) (h : amount ≤ 0) :
    apply_transaction_state st amount ty ref = st := by
  simp [apply_transaction_state, apply_transaction, h]

/-- When the wallet balance is non-negative, the shop-cut credit step
never fails: it returns exactly the post-`apply_transaction` state
(the untouched ledger when the cut is non-positive). -/
theorem winLedgerStep_eq (led : LedgerState) (cut : ℚ) (hbal : 0 ≤ led.balance) :
    winLedgerStep led cut =
      .ok (apply_transaction_state led cut "bet_credit" "shop_cut") := by
  unfold winLedgerStep
  by_cases hcp : cut > 0
  · have happ : apply_transaction led cut "bet_credit" "shop_cut" =
        .ok ((⟨"bet_credit", cut, led.balance, led.balance + cut, "shop_cut"⟩,
             ⟨led.balance + cut,
               led.txs ++ [⟨"bet_credit", cut, led.balance, led.balance + cut,
                 "shop_cut"⟩]⟩)) := by
      unfold apply_transaction
      rw [if_neg (not_le.mpr hcp), if_neg (by decide : ¬("bet_credit" ∉ ALL_TYPES)),
        if_pos (by decide : "bet_credit" ∈ CREDIT_TYPES)]
      rw [if_neg (by push_neg; linarith)]
    rw [if_pos hcp, happ]
    unfold apply_transaction_state
    rw [happ]
  · rw [if_neg hcp, apply_transaction_state_nonpos led "bet_credit" "shop_cut" (not_lt.mp hcp)]

/-- The winning branch with a solvent wallet: response, saved game,
credited ledger. -/
theorem winFinish_eq (g : Game) (led : LedgerState) (idx : ℕ) (pat : String)
    (tp pa cut : ℚ) (hbal : 0 ≤ led.balance) :
    winFinish g led idx pat tp pa cut =
      (.win idx pat tp pa cut, winClaimUpdate g idx pat tp pa cut,
        apply_transaction_state led cut "bet_credit" "shop_cut") := by
  unfold winFinish
  rw [winLedgerStep_eq led cut hbal]

/-- Full reduction of `GameClaimView.post` on a winning, auto-detected
claim against an active game with an unbanned in-range cartella. -/
theorem gameClaim_win_eq (g : Game) (led : LedgerState) (idx : ℕ)
    (hact : g.status = GStatus.active)
    (hidx : idx < g.cartella_numbers.length)
    (hban : idx ∉ g.banned_cartellas)
    (hwin : (_detect_winning_pattern (g.cartella_numbers.getD idx []) g.called_numbers).isSome = true)
    (hbal : 0 ≤ led.balance) :
    gameClaim g led (idx : ℤ) none =
      (ClaimResp.win idx
        ((_detect_winning_pattern (g.cartella_numbers.getD idx []) g.called_numbers).getD "row")
        (effectivePool g) (quantize2 (effectivePool g - shopCutOf g)) (shopCutOf g),
      winClaimUpdate g idx
        ((_detect_winning_pattern (g.cartella_numbers.getD idx []) g.called_numbers).getD "row")
        (effectivePool g) (quantize2 (effectivePool g - shopCutOf g)) (shopCutOf g),
      apply_transaction_state led (shopCutOf g) "bet_credit" "shop_cut") := by
  have hidx2 : ¬((idx : ℤ) < 0 ∨ (idx : ℤ) ≥ (g.cartella_numbers.length : ℤ)) := by
    push_neg
    exact ⟨by positivity, by exact_mod_cast hidx⟩
  simp only [gameClaim, patternOfRaw, hact, ne_eq, not_true_eq_false, if_false, hidx2,
    Int.toNat_natCast, resolve_game_financials_eq]
  simp [hban, hwin, hbal, winFinish_eq g led idx]
  exact Option.isSome_iff_ne_none.mp (by simpa [List.getD_eq_getElem?_getD] using hwin)

/-- C3: a successful winning claim on an active game sets
`shop_cut_amount = round_half_up(total_pool * cut_percentage / 100)`
(2 decimals), `payout_amount = total_pool - shop_cut_amount`, with
`shop_cut_amount + payout_amount = total_pool` exactly; the game
becomes `completed` with `winners = [idx]` and `call_cursor` forced to
the draw length, and every subsequent claim is rejected because the
game is no longer active. -/
theorem gameClaim_true_claim_spec (g : Game) (led : LedgerState) (idx : ℕ) (c : ℚ)
    (hact : g.status = GStatus.active)
    (hidx : idx < g.cartella_numbers.length)
    (hban : idx ∉ g.banned_cartellas)
    (hwin : (_detect_winning_pattern (g.cartella_numbers.getD idx []) g.called_numbers).isSome = true)
    (hbal : 0 ≤ led.balance)
    (hc : g.cut_percentage = some c) (hc0 : 0 ≤ c) (hc1 : c ≤ 100)
    (hpool2 : Is2dp g.total_pool) (hbet2 : Is2dp g.bet_amount) :
    (gameClaim g led (idx : ℤ) none).2.1.shop_cut_amount =
      quantize2 (effectivePool g * c / 100) ∧
    (gameClaim g led (idx : ℤ) none).2.1.payout_amount =
      effectivePool g - (gameClaim g led (idx : ℤ) none).2.1.shop_cut_amount ∧
    (gameClaim g led (idx : ℤ) none).2.1.shop_cut_amount +
      (gameClaim g led (idx : ℤ) none).2.1.payout_amount = effectivePool g ∧
    (gameClaim g led (idx : ℤ) none).2.1.total_pool = effectivePool g ∧
    (gameClaim g led (idx : ℤ) none).2.1.status = GStatus.completed ∧
    (gameClaim g led (idx : ℤ) none).2.1.winners = [idx] ∧
    (gameClaim g led (idx : ℤ) none).2.1.call_cursor = g.draw_sequence.length ∧
    (∀ (i2 : ℤ) (p2 : Option String),
      gameClaim (gameClaim g led (idx : ℤ) none).2.1 (gameClaim g led (idx : ℤ) none).2.2 i2 p2 =
        (.notActive, (gameClaim g led (idx : ℤ) none).2.1,
          (gameClaim g led (idx : ℤ) none).2.2)) := by
  have hres := gameClaim_win_eq g led idx hact hidx hban hwin hbal
  have hclamp : clampedCut g = c := by
    unfold clampedCut
    rw [hc]
    simp only [Option.getD_some]
    rw [min_eq_right hc1, max_eq_right hc0]
  have hcutf : shopCutOf g = quantize2 (effectivePool g * c / 100) := by
    rw [shopCutOf, hclamp]
  have hpayout : quantize2 (effectivePool g - shopCutOf g) =
      effectivePool g - shopCutOf g :=
    quantize2_eq_self (is2dp_sub (is2dp_effectivePool hpool2 hbet2) (is2dp_quantize2 _))
  refine ⟨?_, ?_, ?_, ?_, ?_, ?_, ?_, ?_⟩
  · rw [hres]; exact hcutf
  · rw [hres]; exact hpayout
  · rw [hres]
    show shopCutOf g + quantize2 (effectivePool g - shopCutOf g) = effectivePool g
    rw [hpayout]; ring
  · rw [hres]; rfl
  · rw [hres]; rfl
  · rw [hres]; rfl
  · rw [hres]; rfl
  · intro i2 p2
    apply gameClaim_not_active
    rw [hres]
    simp [winClaimUpdate]

theorem gameClaim_true_claim_spec_witness :
    (gameClaim
      { baseGame with
          cartella_numbers := [List.range' 1 25]
          called_numbers := [1, 2, 3, 4, 5]
          total_pool := 100 }
      ⟨200, []⟩ ((0 : ℕ) : ℤ) none).2.1.status = GStatus.completed :=
  (gameClaim_true_claim_spec
    { baseGame with
        cartella_numbers := [List.range' 1 25]
        called_numbers := [1, 2, 3, 4, 5]
        total_pool := 100 }
    ⟨200, []⟩ 0 10 rfl (by decide) (by decide) (by decide) (by decide)
    rfl (by decide) (by decide) ⟨10000, by norm_num⟩
    ⟨1000, by norm_num [baseGame]⟩).2.2.2.2.1

/-! ### False-claim and ban lemmas -/

theorem ensure_def (g : Game) (j : ℕ) :
    _ensure_cartella_statuses g j =
      if j ∈ g.winners then "winner"
      else if j ∈ g.banned_cartellas then "banned"
      else if g.cartella_statuses j ∈ ["active", "banned", "winner"] then
        g.cartella_statuses j
      else "active" := rfl

theorem ensure_valid (g : Game) (j : ℕ) :
    _ensure_cartella_statuses g j ∈ ["active", "banned", "winner"] := by
  rw [ensure_def]
  split_ifs with h1 h2 h3 <;> simp_all

theorem mem_banned_insert (l : List ℕ) (x a : ℕ) :
    (a ∈ ((x :: l).dedup).mergeSort (· ≤ ·)) ↔ (a = x ∨ a ∈ l) := by
  rw [List.mem_mergeSort, List.mem_dedup, List.mem_cons]

theorem falseClaimUpdate_statuses (g : Game) (idx : ℕ) (S : String) :
    (falseClaimUpdate g idx S).cartella_statuses =
      fun j => if j = idx then "banned" else _ensure_cartella_statuses g j := rfl

/-- Statuses recomputed after a false claim agree with the previous
recomputation away from the banned index. -/
theorem ensure_falseClaimUpdate (g : Game) (idx : ℕ) (S : String) (j : ℕ)
    (hj : j ≠ idx) :
    _ensure_cartella_statuses (falseClaimUpdate g idx S) j =
      _ensure_cartella_statuses g j := by
  have hmem : (j ∈ ((idx :: g.banned_cartellas).dedup).mergeSort (· ≤ ·)) ↔
      j ∈ g.banned_cartellas := by
    rw [mem_banned_insert]
    simp [hj]
  rw [ensure_def (falseClaimUpdate g idx S)]
  show (if j ∈ g.winners then "winner"
    else if j ∈ ((idx :: g.banned_cartellas).dedup).mergeSort (· ≤ ·) then "banned"
    else if (if j = idx then "banned" else _ensure_cartella_statuses g j) ∈
        ["active", "banned", "winner"] then
      (if j = idx then "banned" else _ensure_cartella_statuses g j)
    else "active") = _ensure_cartella_statuses g j
  by_cases hw : j ∈ g.winners
  · rw [if_pos hw, ensure_def g j, if_pos hw]
  · rw [if_neg hw]
    by_cases hb : j ∈ g.banned_cartellas
    · rw [if_pos (hmem.mpr hb), ensure_def g j, if_neg hw, if_pos hb]
    · rw [if_neg (fun h => hb (hmem.mp h)), if_neg hj,
        if_pos (ensure_valid g j)]

/-- Re-banning the index of a fresh false claim changes nothing: the
already-banned branch writes back the same statuses. -/
theorem bannedClaimUpdate_falseClaimUpdate (g : Game) (idx : ℕ) (S : String) :
    bannedClaimUpdate (falseClaimUpdate g idx S) idx = falseClaimUpdate g idx S := by
  unfold bannedClaimUpdate
  have hfun : (fun j => if j = idx then "banned"
      else _ensure_cartella_statuses (falseClaimUpdate g idx S) j) =
      (falseClaimUpdate g idx S).cartella_statuses := by
    funext j
    simp only [falseClaimUpdate_statuses]
    by_cases hj : j = idx
    · simp [hj]
    · rw [if_neg hj, if_neg hj, ensure_falseClaimUpdate g idx S j hj]
  rw [hfun]

/-- The already-banned branch of `GameClaimView.post`. -/
theorem gameClaim_banned_eq (g : Game) (led : LedgerState) (idx : ℕ)
    (p : Option String)
    (hact : g.status = GStatus.active)
    (hidx : idx < g.cartella_numbers.length)
    (hpat : patternOfRaw p = "" ∨ patternOfRaw p ∈ ["row", "diagonal"])
    (hmem : idx ∈ g.banned_cartellas) :
    gameClaim g led (idx : ℤ) p = (.bannedResp idx, bannedClaimUpdate g idx, led) := by
  have hidx2 : ¬((idx : ℤ) < 0 ∨ (idx : ℤ) ≥ (g.cartella_numbers.length : ℤ)) := by
    push_neg
    exact ⟨by positivity, by exact_mod_cast hidx⟩
  have hpatc : ¬(patternOfRaw p ≠ "" ∧ patternOfRaw p ∉ ["row", "diagonal"]) := by
    rcases hpat with h | h <;> simp [h]
  simp only [gameClaim, hact, ne_eq, not_true_eq_false, if_false, hidx2,
    Int.toNat_natCast, hpatc, hmem, if_true]

/-- The false-claim branch of `GameClaimView.post`. -/
theorem gameClaim_false_eq (g : Game) (led : LedgerState) (idx : ℕ)
    (p : Option String)
    (hact : g.status = GStatus.active)
    (hidx : idx < g.cartella_numbers.length)
    (hban : idx ∉ g.banned_cartellas)
    (hpat : patternOfRaw p = "" ∨ patternOfRaw p ∈ ["row", "diagonal"])
    (hwin : (if patternOfRaw p = "" then
        (_detect_winning_pattern (g.cartella_numbers.getD idx []) g.called_numbers).isSome
      else _board_matches_pattern (g.cartella_numbers.getD idx []) g.called_numbers
        (patternOfRaw p)) = false) :
    gameClaim g led (idx : ℤ) p =
      (.falseClaim idx
        (if patternOfRaw p ≠ "" then patternOfRaw p
         else (_detect_winning_pattern (g.cartella_numbers.getD idx []) g.called_numbers).getD "row"),
       falseClaimUpdate g idx
        (if patternOfRaw p ≠ "" then patternOfRaw p
         else (_detect_winning_pattern (g.cartella_numbers.getD idx []) g.called_numbers).getD "row"),
       led) := by
  have hidx2 : ¬((idx : ℤ) < 0 ∨ (idx : ℤ) ≥ (g.cartella_numbers.length : ℤ)) := by
    push_neg
    exact ⟨by positivity, by exact_mod_cast hidx⟩
  have hpatc : ¬(patternOfRaw p ≠ "" ∧ patternOfRaw p ∉ ["row", "diagonal"]) := by
    rcases hpat with h | h <;> simp [h]
  simp only [gameClaim, hact, ne_eq, not_true_eq_false, if_false, hidx2,
    Int.toNat_natCast, hpatc, hban]
  simp only [List.getD_eq_getElem?_getD] at hwin
  simp [hpatc, hban, hwin]

/-- A next-call never touches the status, winners, bans, stored
statuses or boards of a game: it only evolves the called numbers. -/
theorem gameNextCall_frame (g : Game) :
    (gameNextCall g).2.status = g.status ∧
    (gameNextCall g).2.winners = g.winners ∧
    (gameNextCall g).2.banned_cartellas = g.banned_cartellas ∧
    (gameNextCall g).2.cartella_statuses = g.cartella_statuses ∧
    (gameNextCall g).2.cartella_numbers = g.cartella_numbers := by
  unfold gameNextCall
  by_cases h1 : g.status ≠ GStatus.active
  · rw [if_pos h1]
    exact ⟨rfl, rfl, rfl, rfl, rfl⟩
  · rw [if_neg h1]
    by_cases h2 : g.call_cursor ≥ g.draw_sequence.length
    · rw [if_pos h2]
      exact ⟨rfl, rfl, rfl, rfl, rfl⟩
    · rw [if_neg h2]
      exact ⟨rfl, rfl, rfl, rfl, rfl⟩

/-- Any number of next-calls leaves status, winners, bans, stored
statuses and boards unchanged. -/
theorem nextCalls_frame (g : Game) (n : ℕ) :
    (nextCalls g n).status = g.status ∧
    (nextCalls g n).winners = g.winners ∧
    (nextCalls g n).banned_cartellas = g.banned_cartellas ∧
    (nextCalls g n).cartella_statuses = g.cartella_statuses ∧
    (nextCalls g n).cartella_numbers = g.cartella_numbers := by
  induction n generalizing g with
  | zero => exact ⟨rfl, rfl, rfl, rfl, rfl⟩
  | succ n ih =>
    obtain ⟨h1, h2, h3, h4, h5⟩ := ih (gameNextCall g).2
    obtain ⟨k1, k2, k3, k4, k5⟩ := gameNextCall_frame g
    exact ⟨by rw [nextCalls, h1, k1], by rw [nextCalls, h2, k2],
      by rw [nextCalls, h3, k3], by rw [nextCalls, h4, k4],
      by rw [nextCalls, h5, k5]⟩

/-- `_ensure_cartella_statuses` reads only the winners, bans and
stored statuses of a game. -/
theorem ensure_eq_of_fields (g h : Game)
    (hw : h.winners = g.winners)
    (hb : h.banned_cartellas = g.banned_cartellas)
    (hs : h.cartella_statuses = g.cartella_statuses) :
    _ensure_cartella_statuses h = _ensure_cartella_statuses g := by
  funext j
  rw [ensure_def, ensure_def, hw, hb, hs]

/-- After a false claim and any number of further draws — no matter
what the called numbers have become — re-banning the same index
writes back an identical game: the already-banned branch performs no
mutation at all. -/
theorem bannedClaimUpdate_nextCalls (g : Game) (idx : ℕ) (S : String) (n : ℕ) :
    bannedClaimUpdate (nextCalls (falseClaimUpdate g idx S) n) idx =
      nextCalls (falseClaimUpdate g idx S) n := by
  obtain ⟨h1, h2, h3, h4, h5⟩ := nextCalls_frame (falseClaimUpdate g idx S) n
  unfold bannedClaimUpdate
  have hens : _ensure_cartella_statuses (nextCalls (falseClaimUpdate g idx S) n) =
      _ensure_cartella_statuses (falseClaimUpdate g idx S) :=
    ensure_eq_of_fields _ _ h2 h3 h4
  have hfun : (fun j => if j = idx then "banned"
      else _ensure_cartella_statuses (nextCalls (falseClaimUpdate g idx S) n) j) =
      (nextCalls (falseClaimUpdate g idx S) n).cartella_statuses := by
    funext j
    rw [hens, h4, falseClaimUpdate_statuses]
    simp only []
    by_cases hj : j = idx
    · rw [if_pos hj, if_pos hj]
    · rw [if_neg hj, if_neg hj, ensure_falseClaimUpdate g idx S j hj]
  rw [hfun]

/-- C6: a false claim on an active game bans the cartella (it joins
`banned_cartellas`, its status becomes `"banned"`), appends a
`false_claim` audit entry, touches no ledger state, and leaves the
game active; and after any number of further next-calls — in
particular once the called numbers have grown enough to make the
cartella win — every (well-formed) claim on the same index hits the
banned branch: banned response, the game and ledger states entirely
unchanged, no re-adjudication. -/
theorem gameClaim_false_claim_spec (g : Game) (led : LedgerState) (idx : ℕ)
    (hact : g.status = GStatus.active)
    (hidx : idx < g.cartella_numbers.length)
    (hban : idx ∉ g.banned_cartellas)
    (hwin : (_detect_winning_pattern (g.cartella_numbers.getD idx []) g.called_numbers).isSome = false) :
    (gameClaim g led (idx : ℤ) none).1 =
      .falseClaim idx
        ((_detect_winning_pattern (g.cartella_numbers.getD idx []) g.called_numbers).getD "row") ∧
    (gameClaim g led (idx : ℤ) none).2.2 = led ∧
    (gameClaim g led (idx : ℤ) none).2.1.status = GStatus.active ∧
    idx ∈ (gameClaim g led (idx : ℤ) none).2.1.banned_cartellas ∧
    (gameClaim g led (idx : ℤ) none).2.1.cartella_statuses idx = "banned" ∧
    (gameClaim g led (idx : ℤ) none).2.1.awarded_claims =
      g.awarded_claims ++
        [{ cartella_index := idx
           pattern := (_detect_winning_pattern (g.cartella_numbers.getD idx []) g.called_numbers).getD "row"
           called_count := g.called_numbers.dedup.length
           result := "false_claim" }] ∧
    (∀ (n : ℕ) (led2 : LedgerState) (p2 : Option String),
      patternOfRaw p2 = "" ∨ patternOfRaw p2 ∈ ["row", "diagonal"] →
        gameClaim (nextCalls (gameClaim g led (idx : ℤ) none).2.1 n) led2 (idx : ℤ) p2 =
          (.bannedResp idx, nextCalls (gameClaim g led (idx : ℤ) none).2.1 n, led2)) := by
  have hres := gameClaim_false_eq g led idx none hact hidx hban (Or.inl rfl) hwin
  rw [hres]
  have hmem : idx ∈ ((idx :: g.banned_cartellas).dedup).mergeSort (· ≤ ·) := by
    rw [mem_banned_insert]
    exact Or.inl rfl
  refine ⟨rfl, rfl, by exact hact, hmem, ?_, rfl, ?_⟩
  · show (if idx = idx then "banned" else _ensure_cartella_statuses g idx) = "banned"
    rw [if_pos rfl]
  · intro n led2 p2 hp2
    show gameClaim (nextCalls (falseClaimUpdate g idx
        (if patternOfRaw none ≠ "" then patternOfRaw none
         else (_detect_winning_pattern (g.cartella_numbers.getD idx []) g.called_numbers).getD "row")) n)
        led2 (idx : ℤ) p2 =
      (.bannedResp idx, nextCalls (falseClaimUpdate g idx
        (if patternOfRaw none ≠ "" then patternOfRaw none
         else (_detect_winning_pattern (g.cartella_numbers.getD idx []) g.called_numbers).getD "row")) n,
       led2)
    obtain ⟨f1, f2, f3, f4, f5⟩ := nextCalls_frame
      (falseClaimUpdate g idx
        (if patternOfRaw none ≠ "" then patternOfRaw none
         else (_detect_winning_pattern (g.cartella_numbers.getD idx []) g.called_numbers).getD "row")) n
    rw [gameClaim_banned_eq _ led2 idx p2 (f1.trans (by exact hact))
      (by exact lt_of_lt_of_eq hidx (congrArg List.length f5).symm) hp2
      (by rw [f3]; exact hmem),
      bannedClaimUpdate_nextCalls]

theorem gameClaim_false_claim_spec_witness :
    (_detect_winning_pattern
        ((nextCalls (gameClaim gameC6 ⟨200, []⟩ ((0 : ℕ) : ℤ) none).2.1 5).cartella_numbers.getD 0 [])
        (nextCalls (gameClaim gameC6 ⟨200, []⟩ ((0 : ℕ) : ℤ) none).2.1 5).called_numbers).isSome
      = true ∧
    gameClaim (nextCalls (gameClaim gameC6 ⟨200, []⟩ ((0 : ℕ) : ℤ) none).2.1 5)
        ⟨200, []⟩ ((0 : ℕ) : ℤ) none =
      (.bannedResp 0, nextCalls (gameClaim gameC6 ⟨200, []⟩ ((0 : ℕ) : ℤ) none).2.1 5,
       ⟨200, []⟩) :=
  ⟨by decide,
   (gameClaim_false_claim_spec gameC6 ⟨200, []⟩ 0 rfl (by decide) (by decide)
     (by decide)).2.2.2.2.2.2 5 ⟨200, []⟩ none (Or.inl rfl)⟩

/-! ### Session finalize lemmas -/

/-- A session that already has a game: finalize returns it unchanged. -/
theorem finalize_some (s : Session) (led : LedgerState) (rnd : ℕ → ℕ) (pos : ℕ)
    (g : Game) (h : s.game = some g) :
    _finalize_shop_session s led rnd pos = .ok (g, s, led) := by
  unfold _finalize_shop_session
  rw [h]
  rfl

theorem finalize_fresh_eq (s : Session) (led : LedgerState) (rnd : ℕ → ℕ)
    (pos : ℕ) (h : s.game = none) :
    _finalize_shop_session s led rnd pos = finalizeFresh s led rnd pos := by
  unfold _finalize_shop_session
  rw [h]
  rfl

/-- Inversion of a successful fresh finalize: the generated boards
exist, the returned game is the created pending game, the session is
locked and linked, and the ledger is untouched. -/
theorem finalizeFresh_inv (s : Session) (led : LedgerState) (rnd : ℕ → ℕ)
    (pos : ℕ) (g : Game) (s' : Session) (led' : LedgerState)
    (h : finalizeFresh s led rnd pos = .ok (g, s', led')) :
    ∃ bp, _generate_unique_cartella_boards
        (s.players_data.flatMap (·.cartella_numbers)).length rnd pos = .ok bp ∧
      g = finalizedGame s rnd bp ∧
      s' = { s with status := SStatus.locked, game := some g } ∧
      led' = led ∧
      s.players_data.length = 4 ∧ s.players_data.all (·.paid) = true ∧
      0 < s.total_payable := by
  unfold finalizeFresh at h
  simp only [] at h
  by_cases h1 : s.players_data.length ≠ 4
  · rw [if_pos h1] at h
    exact Except.noConfusion h
  rw [if_neg h1] at h
  by_cases h2 : ¬ s.players_data.all (·.paid)
  · rw [if_pos h2] at h
    exact Except.noConfusion h
  rw [if_neg h2] at h
  by_cases h3 : (s.players_data.flatMap (·.cartella_numbers)).length > 16
  · rw [if_pos h3] at h
    exact Except.noConfusion h
  rw [if_neg h3] at h
  by_cases h4 : (s.players_data.flatMap (·.cartella_numbers)).dedup.length ≠
      (s.players_data.flatMap (·.cartella_numbers)).length
  · rw [if_pos h4] at h
    exact Except.noConfusion h
  rw [if_neg h4] at h
  rcases hbp : _generate_unique_cartella_boards
      (s.players_data.flatMap (·.cartella_numbers)).length rnd pos with e | bp
  · rw [hbp] at h
    simp only [exceptStep] at h
    exact Except.noConfusion h
  · rw [hbp] at h
    simp only [exceptStep] at h
    unfold finalizeWithBoards at h
    simp only [] at h
    by_cases h5 : s.total_payable ≤ 0
    · rw [if_pos h5] at h
      exact Except.noConfusion h
    · rw [if_neg h5] at h
      simp only [Except.ok.injEq, Prod.mk.injEq] at h
      obtain ⟨hg, hs', hled⟩ := h
      refine ⟨bp, rfl, hg.symm, ?_, hled.symm, by omega, by simpa using h2, by linarith⟩
      rw [← hs', ← hg]

/-- Confirming payment on a session that already carries a game (all
players present and paid) returns the existing game and leaves the
game link and the ledger untouched. -/
theorem confirmFinalize_existing (t : Session) (led2 : LedgerState) (rnd2 : ℕ → ℕ)
    (pos2 : ℕ) (g : Game) (ht : t.game = some g) :
    confirmFinalize t led2 rnd2 pos2 = (.ok true (some g), t, led2) := by
  unfold confirmFinalize
  rw [finalize_some t led2 rnd2 pos2 g ht]

theorem confirm_payment_existing (s : Session) (led2 : LedgerState) (name : String)
    (rnd2 : ℕ → ℕ) (pos2 : ℕ) (i : ℕ) (g : Game)
    (hfind : s.players_data.findIdx?
      (fun p => lowerStr p.player_name = lowerStr name) = some i)
    (hcart : ¬ (s.players_data.getD i default).cartella_numbers = [])
    (hlen : (s.players_data.set i
      { s.players_data.getD i default with paid := true, paid_at := some () }).length =
      s.fixed_players)
    (hall : ((s.players_data.set i
      { s.players_data.getD i default with paid := true, paid_at := some () }).all
      (·.paid)) = true)
    (hgame : s.game = some g) :
    (confirm_payment s led2 name rnd2 pos2).1 = ConfirmResp.ok true (some g) ∧
    (confirm_payment s led2 name rnd2 pos2).2.1.game = some g ∧
    (confirm_payment s led2 name rnd2 pos2).2.2 = led2 := by
  set P' := s.players_data.set i
    { s.players_data.getD i default with paid := true, paid_at := some () } with hP'
  set S1 : Session := { s with players_data := P' } with hS1
  set S2 : Session := { S1 with
    locked_cartellas := (_recalculate_session_totals S1).1,
    total_payable := (_recalculate_session_totals S1).2 } with hS2
  have hS2game : S2.game = some g := by
    rw [hS2, hS1]
    exact hgame
  have hred : confirm_payment s led2 name rnd2 pos2 = confirmFinalize S2 led2 rnd2 pos2 := by
    unfold confirm_payment
    try simp only []
    rw [hfind]
    simp only [optStep]
    rw [if_neg hcart]
    try simp only []
    rw [if_pos ⟨hlen, hall⟩, hS2, hS1, hP']
  rw [hred, confirmFinalize_existing S2 led2 rnd2 pos2 g hS2game]
  exact ⟨rfl, hS2game, rfl⟩

/-- C7: finalize fires only with exactly 4 paid players; the first
successful finalize creates one pending game carrying
`total_pool = total_payable` and locks the session; every later
finalize, and every payment re-confirmation, returns the existing
game, creates nothing and leaves the ledger alone. -/
theorem session_finalize_spec (s : Session) (led : LedgerState) (rnd : ℕ → ℕ)
    (pos : ℕ) :
    (s.game = none →
      (s.players_data.length ≠ 4 ∨ ¬ s.players_data.all (·.paid)) →
      ∃ e, _finalize_shop_session s led rnd pos = .error e) ∧
    (∀ g s' led', s.game = none →
      _finalize_shop_session s led rnd pos = .ok (g, s', led') →
      g.status = GStatus.pending ∧
      g.total_pool = s.total_payable ∧
      g.bet_debited_at = some () ∧
      led' = led ∧
      s'.status = SStatus.locked ∧
      s'.game = some g ∧
      s'.players_data = s.players_data ∧
      s'.fixed_players = s.fixed_players ∧
      (∀ led2 rnd2 pos2,
        _finalize_shop_session s' led2 rnd2 pos2 = .ok (g, s', led2)) ∧
      (∀ led2 rnd2 pos2 name i,
        s.fixed_players = 4 →
        s'.players_data.findIdx?
          (fun p => lowerStr p.player_name = lowerStr name) = some i →
        ¬ (s'.players_data.getD i default).cartella_numbers = [] →
        (confirm_payment s' led2 name rnd2 pos2).1 = ConfirmResp.ok true (some g) ∧
        (confirm_payment s' led2 name rnd2 pos2).2.1.game = some g ∧
        (confirm_payment s' led2 name rnd2 pos2).2.2 = led2)) := by
  constructor
  · intro hnone hbad
    by_cases hl : s.players_data.length ≠ 4
    · exact ⟨"Exactly 4 players are required before game creation",
        by rw [finalize_fresh_eq s led rnd pos hnone]; unfold finalizeFresh; rw [if_pos hl]⟩
    · have hpd : ¬ s.players_data.all (·.paid) := by tauto
      exact ⟨"All 4 players must confirm payment before game creation",
        by rw [finalize_fresh_eq s led rnd pos hnone]; unfold finalizeFresh
           rw [if_neg hl, if_pos hpd]⟩
  · intro g s' led' hnone hok
    rw [finalize_fresh_eq s led rnd pos hnone] at hok
    obtain ⟨bp, hbp, hg, hs', hled, h4, hpaid, hpool⟩ :=
      finalizeFresh_inv s led rnd pos g s' led' hok
    have hgstatus : g.status = GStatus.pending := by rw [hg]; rfl
    have hgpool : g.total_pool = s.total_payable := by rw [hg]; rfl
    have hgdeb : g.bet_debited_at = some () := by rw [hg]; rfl
    have hs'game : s'.game = some g := by rw [hs']
    have hs'status : s'.status = SStatus.locked := by rw [hs']
    have hs'players : s'.players_data = s.players_data := by rw [hs']
    have hs'fixed : s'.fixed_players = s.fixed_players := by rw [hs']
    refine ⟨hgstatus, hgpool, hgdeb, hled, hs'status, hs'game, hs'players, hs'fixed,
      fun led2 rnd2 pos2 => finalize_some s' led2 rnd2 pos2 g hs'game, ?_⟩
    intro led2 rnd2 pos2 name i hfix hfind hcart
    have hlen' : (s'.players_data.set i
        { s'.players_data.getD i default with paid := true, paid_at := some () }).length =
        s'.fixed_players := by
      rw [List.length_set, hs'players, hs'fixed, hfix, h4]
    have hall' : ((s'.players_data.set i
        { s'.players_data.getD i default with paid := true, paid_at := some () }).all
        (·.paid)) = true := by
      rw [List.all_eq_true]
      intro x hx
      rcases List.mem_or_eq_of_mem_set hx with hmem | rfl
      · rw [hs'players] at hmem
        rw [List.all_eq_true] at hpaid
        exact hpaid x hmem
      · rfl
    exact confirm_payment_existing s' led2 name rnd2 pos2 i g hfind hcart hlen' hall' hs'game

theorem session_finalize_spec_witness :
    ∃ e, _finalize_shop_session
      { sessionC with players_data := [playerC "P1" 1, playerC "P2" 2, playerC "P3" 3] }
      ledC rndId 0 = .error e :=
  (session_finalize_spec
    { sessionC with players_data := [playerC "P1" 1, playerC "P2" 2, playerC "P3" 3] }
    ledC rndId 0).1 rfl (Or.inl (by decide))

/-! ### C2: no ledger debit anywhere on the shop-mode path -/

/-- The claim "the shop's wallet is debited at session finalize for
the session's total stake" is false on the code: a concrete fully
paid 4-player session (total stake 80) finalizes successfully and the
ledger comes back exactly as it went in — no debit, no transaction
row. -/
theorem shop_session_finalize_no_debit_counterexample :
    finalizeLedger sessionC ledC rndId 0 = some ledC ∧
    ledC.balance = 100 ∧ ledC.txs = [] ∧ sessionC.total_payable = 80 := by
  refine ⟨by decide, by decide, by decide, by decide⟩

/-- Every branch of the reservation upsert passes the ledger through. -/
theorem reserveUpsert_ledger (s : Session) (led : LedgerState) (name : String)
    (nums : List ℕ) (bet : ℚ) (pi : Option ℕ) :
    (reserveUpsert s led name nums bet pi).2.2 = led := by
  unfold reserveUpsert
  simp only []
  split
  · rfl
  · split
    · rfl
    · rfl

/-- C2 (amended): creating reservations never touches the ledger, and
session finalize does not debit the wallet either — a successful
finalize returns the ledger unchanged and merely stamps the game's
`bet_debited_at`. -/
theorem shop_session_ledger_untouched (s : Session) (led : LedgerState)
    (name : String) (nums : List ℕ) (bet : ℚ) (rnd : ℕ → ℕ) (pos : ℕ) :
    (session_reserve s led name nums bet).2.2 = led ∧
    (∀ g s' led', _finalize_shop_session s led rnd pos = .ok (g, s', led') →
      led' = led ∧ (s.game = none → g.bet_debited_at = some ())) := by
  constructor
  · unfold session_reserve
    simp only []
    split
    · rfl
    · split
      · rfl
      · unfold optStep
        split
        · split
          · rfl
          · exact reserveUpsert_ledger s led name nums bet none
        · simp only []
          split
          · rfl
          · exact reserveUpsert_ledger s led name nums bet _
  · intro g s' led' hok
    rcases hgame : s.game with _ | g0
    · rw [finalize_fresh_eq s led rnd pos hgame] at hok
      obtain ⟨bp, hbp, hg, hs', hled, h4, hpaid, hpool⟩ :=
        finalizeFresh_inv s led rnd pos g s' led' hok
      exact ⟨hled, fun _ => by rw [hg]; rfl⟩
    · rw [finalize_some s led rnd pos g0 hgame] at hok
      simp only [Except.ok.injEq, Prod.mk.injEq] at hok
      exact ⟨hok.2.2.symm, fun hn => absurd hn (by simp)⟩

theorem shop_session_ledger_untouched_witness :
    (session_reserve sessionC ledC "P5" [9] 20).2.2 = ledC :=
  (shop_session_ledger_untouched sessionC ledC "P5" [9] 20 rndId 0).1

/-! ### C10: phantom refund on shop-mode games -/

/-- The retry loop returns exactly `count` boards. -/
theorem genBoardsGo_length (count : ℕ) (rnd : ℕ → ℕ) :
    ∀ (fuel : ℕ) (boards : List (List ℕ)) (pos : ℕ) (bp : List (List ℕ) × ℕ),
      boards.length ≤ count → genBoardsGo count rnd fuel boards pos = .ok bp →
      bp.1.length = count
  | 0, boards, pos, bp, hle, h => by
    unfold genBoardsGo at h
    by_cases hge : boards.length ≥ count
    · rw [if_pos hge] at h
      simp only [Except.ok.injEq] at h
      have hbp1 : bp.1 = boards := by rw [← h]
      rw [hbp1]
      omega
    · rw [if_neg hge] at h
      exact Except.noConfusion h
  | fuel + 1, boards, pos, bp, hle, h => by
    unfold genBoardsGo at h
    by_cases hge : boards.length ≥ count
    · rw [if_pos hge] at h
      simp only [Except.ok.injEq] at h
      have hbp1 : bp.1 = boards := by rw [← h]
      rw [hbp1]
      omega
    · rw [if_neg hge] at h
      simp only [] at h
      by_cases hmem : _generate_cartella_board rnd pos ∈ boards
      · rw [if_pos hmem] at h
        exact genBoardsGo_length count rnd fuel boards (pos + 25) bp hle h
      · rw [if_neg hmem] at h
        exact genBoardsGo_length count rnd fuel
          (boards ++ [_generate_cartella_board rnd pos]) (pos + 25) bp
          (by simp only [List.length_append, List.length_cons, List.length_nil]; omega) h

/-- `_generate_unique_cartella_boards count` returns `count` boards. -/
theorem gen_unique_boards_length (count : ℕ) (rnd : ℕ → ℕ) (pos : ℕ)
    (bp : List (List ℕ) × ℕ)
    (h : _generate_unique_cartella_boards count rnd pos = .ok bp) :
    bp.1.length = count := by
  unfold _generate_unique_cartella_boards at h
  split_ifs at h with hc
  · simp only [Except.ok.injEq] at h
    rw [← h]
    simp [hc]
  · exact genBoardsGo_length count rnd _ [] pos bp (by simp) h

/-- A positive credit against a solvent wallet always succeeds. -/
theorem apply_transaction_credit_ok (led : LedgerState) (amt : ℚ) (ref : String)
    (hpos : 0 < amt) (hbal : 0 ≤ led.balance) :
    apply_transaction led amt "bet_credit" ref =
      .ok ((⟨"bet_credit", amt, led.balance, led.balance + amt, ref⟩,
           ⟨led.balance + amt,
            led.txs ++ [⟨"bet_credit", amt, led.balance, led.balance + amt, ref⟩]⟩)) := by
  unfold apply_transaction
  rw [if_neg (not_le.mpr hpos), if_neg (by decide : ¬("bet_credit" ∉ ALL_TYPES)),
    if_pos (by decide : "bet_credit" ∈ CREDIT_TYPES)]
  rw [if_neg (by push_neg; linarith)]

/-- C10 (implicit-claim check): a game created by session finalize has
`bet_debited_at` stamped although the ledger never saw a debit
(`led' = led`); cancelling that game therefore credits the shop a
refund of `bet_amount * cartella_count` — money that was never
debited. -/
theorem shop_fixed4_phantom_refund (s : Session) (led : LedgerState)
    (rnd : ℕ → ℕ) (pos : ℕ)
    (hnone : s.game = none)
    (hmin : 0 < s.min_bet_per_cartella)
    (hbal : 0 ≤ led.balance) :
    ∀ g s' led', _finalize_shop_session s led rnd pos = .ok (g, s', led') →
      0 < (s.players_data.flatMap (·.cartella_numbers)).length →
      g.bet_debited_at = some () ∧
      led' = led ∧
      g.bet_amount = s.min_bet_per_cartella ∧
      g.cartella_numbers.length = (s.players_data.flatMap (·.cartella_numbers)).length ∧
      (∃ g2 led2 tx, game_complete_update g led GStatus.cancelled [] = .ok (g2, led2) ∧
        led2.txs = led.txs ++ [tx] ∧
        tx.tx_type = "bet_credit" ∧
        tx.amount = g.bet_amount * (g.cartella_numbers.length : ℚ) ∧
        0 < tx.amount ∧
        led2.balance = led.balance + tx.amount ∧
        g2.status = GStatus.cancelled ∧
        g2.refund_credited_at = some ()) := by
  intro g s' led' hok hcarts
  rw [finalize_fresh_eq s led rnd pos hnone] at hok
  obtain ⟨bp, hbp, hg, hs', hled, h4, hpaid, hpool⟩ :=
    finalizeFresh_inv s led rnd pos g s' led' hok
  have hgdeb : g.bet_debited_at = some () := by rw [hg]; rfl
  have hgbet : g.bet_amount = s.min_bet_per_cartella := by rw [hg]; rfl
  have hgstatus : g.status = GStatus.pending := by rw [hg]; rfl
  have hgrefund : g.refund_credited_at = none := by rw [hg]; rfl
  have hgpayout : g.payout_credited_at = none := by rw [hg]; rfl
  have hgboards : g.cartella_numbers = bp.1 := by rw [hg]; rfl
  have hglen : g.cartella_numbers.length =
      (s.players_data.flatMap (·.cartella_numbers)).length := by
    rw [hgboards]
    exact gen_unique_boards_length _ rnd pos bp hbp
  have hamt : 0 < g.bet_amount * (g.cartella_numbers.length : ℚ) := by
    rw [hgbet, hglen]
    have : (0 : ℚ) < ((s.players_data.flatMap (·.cartella_numbers)).length : ℚ) := by
      exact_mod_cast hcarts
    exact mul_pos hmin this
  have happ := apply_transaction_credit_ok led
    (g.bet_amount * (g.cartella_numbers.length : ℚ)) "refund" hamt hbal
  have hps : completePayoutStep g led GStatus.cancelled [] = .ok (g, led) := by
    unfold completePayoutStep
    rw [if_neg (by simp)]
  have hrs : cancelRefundStep g led GStatus.cancelled
      (g.bet_amount * (g.cartella_numbers.length : ℚ)) =
      .ok ({ g with refund_credited_at := some () },
        ⟨led.balance + g.bet_amount * (g.cartella_numbers.length : ℚ),
         led.txs ++ [⟨"bet_credit", g.bet_amount * (g.cartella_numbers.length : ℚ),
           led.balance, led.balance + g.bet_amount * (g.cartella_numbers.length : ℚ),
           "refund"⟩]⟩) := by
    unfold cancelRefundStep
    rw [if_pos ⟨rfl, hgrefund, by simp [hgdeb]⟩, happ]
    rfl
  have hupd : game_complete_update g led GStatus.cancelled [] =
      .ok ({ { g with refund_credited_at := some () } with
              status := GStatus.cancelled
              winners := []
              ended_at := ({ g with refund_credited_at := some () } : Game).ended_at.orElse
                fun _ => some () },
           ⟨led.balance + g.bet_amount * (g.cartella_numbers.length : ℚ),
            led.txs ++ [⟨"bet_credit", g.bet_amount * (g.cartella_numbers.length : ℚ),
              led.balance, led.balance + g.bet_amount * (g.cartella_numbers.length : ℚ),
              "refund"⟩]⟩) := by
    unfold game_complete_update
    rw [if_neg (by simp), if_neg (by simp [hgstatus]), if_neg (by simp),
      if_neg (by simp)]
    simp only []
    rw [hps]
    simp only [exceptStep]
    rw [hrs]
  refine ⟨hgdeb, hled, hgbet, hglen,
    ⟨_, _, ⟨"bet_credit", g.bet_amount * (g.cartella_numbers.length : ℚ),
      led.balance, led.balance + g.bet_amount * (g.cartella_numbers.length : ℚ),
      "refund"⟩, hupd, rfl, rfl, rfl, hamt, rfl, rfl, rfl⟩⟩

theorem shop_fixed4_phantom_refund_witness :
    ∃ g s' led', _finalize_shop_session sessionC ledC rndId 0 = .ok (g, s', led') ∧
      g.bet_debited_at = some () ∧
      led' = ledC ∧
      g.bet_amount = sessionC.min_bet_per_cartella ∧
      g.cartella_numbers.length =
        (sessionC.players_data.flatMap (·.cartella_numbers)).length ∧
      (∃ g2 led2 tx, game_complete_update g ledC GStatus.cancelled [] = .ok (g2, led2) ∧
        led2.txs = ledC.txs ++ [tx] ∧
        tx.tx_type = "bet_credit" ∧
        tx.amount = g.bet_amount * (g.cartella_numbers.length : ℚ) ∧
        0 < tx.amount ∧
        led2.balance = ledC.balance + tx.amount ∧
        g2.status = GStatus.cancelled ∧
        g2.refund_credited_at = some ()) := by
  have hok : exceptIsOk (_finalize_shop_session sessionC ledC rndId 0) = true := by
    decide
  rcases hres : _finalize_shop_session sessionC ledC rndId 0 with e | ⟨g, s', led'⟩
  · rw [hres] at hok
    exact Bool.noConfusion hok
  · exact ⟨g, s', led', rfl,
      shop_fixed4_phantom_refund sessionC ledC rndId 0 rfl (by decide) (by decide)
        g s' led' hres (by decide)⟩

/-! ### C8: standard-mode game creation -/

/-- `game_create` past all validations: debit then game row. -/
theorem game_create_main_eq (user : Shop) (led : LedgerState) (bet_amount : ℚ)
    (num_players : ℕ) (win_amount : ℚ) (cartellas : List (List ℕ))
    (rnd : ℕ → ℕ) (pos : ℕ)
    (hv1 : ¬ cartellas.isEmpty = true)
    (hv2 : ¬ (cartellas.map List.length).sum = 0)
    (hv3 : ¬ cartellas.any (fun c => c.any fun n => n < 1 ∨ n > 75) = true)
    (hcap : ¬ cartellas.length > (if num_players ≠ 0 then num_players * 4 else cartellas.length)) :
    game_create user led bet_amount num_players win_amount cartellas rnd pos =
      exceptStep (apply_transaction led (bet_amount * (cartellas.length : ℚ))
          "bet_debit" "game_bet")
        (fun tl => .ok (mkStandardGame bet_amount num_players win_amount cartellas
          (max 0 (min 100 (user.feature_flags.cut_percentage.getD 10)))
          (100 - max 0 (min 100 (user.feature_flags.cut_percentage.getD 10))) rnd pos,
          tl.2)) := by
  unfold game_create
  rw [if_neg hv1, if_neg hv2, if_neg hv3]
  simp only []
  rw [if_neg hcap]

/-- The claim "creating a standard-mode game rejects a request whose
cartella count exceeds `num_players * 4`" is false as stated: with
`num_players = 0` the serializer's `num_players or 0` fallback makes
the cap default to the submitted count, so a 1-cartella request
(1 > 0 * 4) is accepted and the game is created. -/
theorem game_create_cap_counterexample :
    (([[1]] : List (List ℕ)).length > 0 * 4) ∧
    exceptIsOk (game_create shopC ⟨100, []⟩ 10 0 50 [[1]] rndId 0) = true := by
  refine ⟨by decide, ?_⟩
  rw [game_create_main_eq shopC ⟨100, []⟩ 10 0 50 [[1]] rndId 0
    (by decide) (by decide) (by decide) (by decide)]
  have happ : apply_transaction ⟨100, []⟩
      ((10 : ℚ) * ((([[1]] : List (List ℕ)).length : ℕ) : ℚ)) "bet_debit" "game_bet" =
      .ok (⟨"bet_debit", (10 : ℚ) * ((([[1]] : List (List ℕ)).length : ℕ) : ℚ), 100,
            100 + -((10 : ℚ) * ((([[1]] : List (List ℕ)).length : ℕ) : ℚ)), "game_bet"⟩,
          ⟨100 + -((10 : ℚ) * ((([[1]] : List (List ℕ)).length : ℕ) : ℚ)),
           [] ++ [⟨"bet_debit", (10 : ℚ) * ((([[1]] : List (List ℕ)).length : ℕ) : ℚ), 100,
            100 + -((10 : ℚ) * ((([[1]] : List (List ℕ)).length : ℕ) : ℚ)), "game_bet"⟩]⟩) := by
    unfold apply_transaction
    rw [if_neg (by norm_num), if_neg (by decide : ¬("bet_debit" ∉ ALL_TYPES)),
      if_neg (by decide : ¬("bet_debit" ∈ CREDIT_TYPES)), if_neg (by norm_num)]
  rw [happ]
  rfl

/-- C8 (amended): with `num_players ≥ 1` a request whose cartella
count exceeds `num_players * 4` is rejected (for `num_players = 0` the
cap defaults to the submitted count); an accepted request debits
exactly `bet_amount * cartella_count` through the Ledger Engine in one
appended `bet_debit` row and yields an immediately active game with
`started_at` set; an insufficient-balance debit failure aborts
creation with no game persisted. -/
theorem game_create_spec (user : Shop) (led : LedgerState) (bet_amount : ℚ)
    (num_players : ℕ) (win_amount : ℚ) (cartellas : List (List ℕ))
    (rnd : ℕ → ℕ) (pos : ℕ)
    (hnum : 1 ≤ num_players) :
    (cartellas.length > num_players * 4 →
      ∃ e, game_create user led bet_amount num_players win_amount cartellas rnd pos =
        .error e) ∧
    (∀ g led',
      game_create user led bet_amount num_players win_amount cartellas rnd pos =
        .ok (g, led') →
      g.status = GStatus.active ∧ g.started_at = some () ∧
      g.bet_debited_at = some () ∧ g.cartella_numbers = cartellas ∧
      ∃ tx, led'.txs = led.txs ++ [tx] ∧ tx.tx_type = "bet_debit" ∧
        tx.amount = bet_amount * (cartellas.length : ℚ) ∧
        led'.balance = led.balance - tx.amount) ∧
    (led.balance < bet_amount * (cartellas.length : ℚ) →
      0 < bet_amount * (cartellas.length : ℚ) →
      ∃ e, game_create user led bet_amount num_players win_amount cartellas rnd pos =
        .error e) := by
  have hnum0 : num_players ≠ 0 := by omega
  refine ⟨?_, ?_, ?_⟩
  · intro hlen
    by_cases hv1 : cartellas.isEmpty = true
    · exact ⟨"Provide at least one cartella", by unfold game_create; rw [if_pos hv1]⟩
    · by_cases hv2 : (cartellas.map List.length).sum = 0
      · exact ⟨"Cartella numbers cannot be empty",
          by unfold game_create; rw [if_neg hv1, if_pos hv2]⟩
      · by_cases hv3 : cartellas.any (fun c => c.any fun n => n < 1 ∨ n > 75) = true
        · exact ⟨"Cartella numbers must be between 1 and 75",
            by unfold game_create; rw [if_neg hv1, if_neg hv2, if_pos hv3]⟩
        · refine ⟨"Total cartellas exceed allowed 4 per player", ?_⟩
          unfold game_create
          rw [if_neg hv1, if_neg hv2, if_neg hv3]
          simp only []
          rw [if_pos (by rw [if_pos hnum0]; exact hlen)]
  · intro g led' hok
    by_cases hv1 : cartellas.isEmpty = true
    · rw [show game_create user led bet_amount num_players win_amount cartellas rnd pos =
          .error "Provide at least one cartella" from
          by unfold game_create; rw [if_pos hv1]] at hok
      exact Except.noConfusion hok
    · by_cases hv2 : (cartellas.map List.length).sum = 0
      · rw [show game_create user led bet_amount num_players win_amount cartellas rnd pos =
            .error "Cartella numbers cannot be empty" from
            by unfold game_create; rw [if_neg hv1, if_pos hv2]] at hok
        exact Except.noConfusion hok
      · by_cases hv3 : cartellas.any (fun c => c.any fun n => n < 1 ∨ n > 75) = true
        · rw [show game_create user led bet_amount num_players win_amount cartellas rnd pos =
              .error "Cartella numbers must be between 1 and 75" from
              by unfold game_create; rw [if_neg hv1, if_neg hv2, if_pos hv3]] at hok
          exact Except.noConfusion hok
        · by_cases hcap : cartellas.length >
              (if num_players ≠ 0 then num_players * 4 else cartellas.length)
          · rw [show game_create user led bet_amount num_players win_amount cartellas rnd pos =
                .error "Total cartellas exceed allowed 4 per player" from
                by unfold game_create
                   rw [if_neg hv1, if_neg hv2, if_neg hv3]
                   simp only []
                   rw [if_pos hcap]] at hok
            exact Except.noConfusion hok
          · rw [game_create_main_eq user led bet_amount num_players win_amount cartellas
              rnd pos hv1 hv2 hv3 hcap] at hok
            rcases happ : apply_transaction led (bet_amount * (cartellas.length : ℚ))
                "bet_debit" "game_bet" with e | ⟨tx, st'⟩
            · rw [happ] at hok
              simp only [exceptStep] at hok
              exact Except.noConfusion hok
            · rw [happ] at hok
              simp only [exceptStep, Except.ok.injEq, Prod.mk.injEq] at hok
              obtain ⟨hgeq, hledeq⟩ := hok
              have facts := apply_transaction_success_spec led
                (bet_amount * (cartellas.length : ℚ)) "bet_debit" "game_bet" tx st' happ
              obtain ⟨_, hdeb, _, hbal, htxs, hbefore, hamt, hty⟩ := facts
              refine ⟨by rw [← hgeq]; rfl, by rw [← hgeq]; rfl, by rw [← hgeq]; rfl,
                by rw [← hgeq]; rfl, tx, ?_, hty, hamt, ?_⟩
              · rw [← hledeq]
                exact htxs
              · rw [← hledeq, hbal, hdeb (by decide), hbefore, hamt]
  · intro hins hpos
    by_cases hv1 : cartellas.isEmpty = true
    · exact ⟨"Provide at least one cartella", by unfold game_create; rw [if_pos hv1]⟩
    · by_cases hv2 : (cartellas.map List.length).sum = 0
      · exact ⟨"Cartella numbers cannot be empty",
          by unfold game_create; rw [if_neg hv1, if_pos hv2]⟩
      · by_cases hv3 : cartellas.any (fun c => c.any fun n => n < 1 ∨ n > 75) = true
        · exact ⟨"Cartella numbers must be between 1 and 75",
            by unfold game_create; rw [if_neg hv1, if_neg hv2, if_pos hv3]⟩
        · by_cases hcap : cartellas.length >
              (if num_players ≠ 0 then num_players * 4 else cartellas.length)
          · exact ⟨"Total cartellas exceed allowed 4 per player",
              by unfold game_create
                 rw [if_neg hv1, if_neg hv2, if_neg hv3]
                 simp only []
                 rw [if_pos hcap]⟩
          · refine ⟨"Insufficient balance", ?_⟩
            rw [game_create_main_eq user led bet_amount num_players win_amount cartellas
              rnd pos hv1 hv2 hv3 hcap]
            have happ : apply_transaction led (bet_amount * (cartellas.length : ℚ))
                "bet_debit" "game_bet" = .error "Insufficient balance" := by
              unfold apply_transaction
              rw [if_neg (not_le.mpr hpos),
                if_neg (by decide : ¬("bet_debit" ∉ ALL_TYPES)),
                if_neg (by decide : ¬("bet_debit" ∈ CREDIT_TYPES))]
              rw [if_pos (by linarith)]
            rw [happ]
            rfl

theorem game_create_spec_witness :
    ∃ e, game_create shopC ⟨100, []⟩ 10 1 50 [[1], [2], [3], [4], [5]] rndId 0 =
      .error e :=
  (game_create_spec shopC ⟨100, []⟩ 10 1 50 [[1], [2], [3], [4], [5]] rndId 0
    (by decide)).1 (by decide)

end LuluBingo
